
import Mathlib

/-!
Shallow embedding of `posthog/warehouse/data_load/validate_schema.py`.

The two entry points of the file, `validate_schema` (the probe) and
`validate_schema_and_update_table` (the orchestrator), are translated as
state-passing functions over an explicit database state `DB`.  External
collaborators that live outside this file in the repository (the catalog
store, the schema store, the job accessors, the credential provider, the
ClickHouse column reader and the bucket deleter) are modelled from the
spec's interface section as oracles in an `Env` record plus pure state
operations on `DB`.  Exceptions are modelled with `Except`; an error value
carries the database state at the raise point, since the Python code has no
transaction around the loop body.
-/

/-- Modelled from the spec: the storage access credential, "keyed by team;
looked up or created once per pipeline run".  (`DataWarehouseCredential` is
defined in `posthog.warehouse.models`, outside the given sources.) -/
structure DataWarehouseCredential where
  id : Nat
  access_key : String
  access_secret : String
deriving DecidableEq, Repr

/-- The pipeline (external data source) attached to a job: its id, optional
table-name prefix and source type, as used by the orchestrator. -/
structure Pipeline where
  id : Nat
  prefix_str : Option String
  source_type : String
deriving DecidableEq, Repr

/-- An `ExternalDataJob`: one completed extraction run.  `url_pattern_by_schema`
is the job's function from a normalized schema name to a storage URL pattern
(a method outside the given sources, kept abstract as a function field). -/
structure ExternalDataJob where
  pk : Nat
  team_id : Nat
  pipeline_id : Nat
  pipeline : Pipeline
  created_at : Nat
  url_pattern_by_schema : String → String

/-- A catalog `DataWarehouseTable` row: name, fixed storage format, URL
pattern, owning team, owning source link and a column list. -/
structure DataWarehouseTable where
  id : Nat
  credential : DataWarehouseCredential
  name : String
  format : String
  url_pattern : String
  team_id : Nat
  external_data_source_id : Option Nat
  columns : List (String × String)
deriving DecidableEq, Repr

/-- The dict returned by `validate_schema` in the source: exactly the keys
`credential`, `name`, `format`, `url_pattern`, `team_id` — and nothing else
(in particular no column list). -/
structure SchemaDescriptor where
  credential : DataWarehouseCredential
  name : String
  format : String
  url_pattern : String
  team_id : Nat
deriving DecidableEq, Repr

/-- An `ExternalDataSchema` record: identifier, owning team, optional link to
a catalog table and last-synced timestamp. -/
structure ExternalDataSchema where
  id : String
  team_id : Nat
  table : Option Nat
  last_synced_at : Option Nat
deriving DecidableEq, Repr

/-- Outcome of `DataWarehouseTable.get_columns(safe_expose_ch_error=False)`
during the probe: a column list, a ClickHouse `ServerException` with a
numeric code, or any other exception. -/
inductive ProbeResult where
  | ok (cols : List (String × String))
  | serverException (code : Int)
  | otherError
deriving DecidableEq, Repr

/-- Outcome of the second, unguarded `get_columns()` call (the column
refresh): a column list or an exception. -/
inductive ColumnsResult where
  | ok (cols : List (String × String))
  | error
deriving DecidableEq, Repr

/-- The environment of oracles standing for the external collaborators:
job accessors, credential provider, the ClickHouse column reads (keyed by
the table name and URL pattern they are issued for), whether the catalog
lookup raises for a given schema id, and whether bucket deletion raises. -/
structure Env where
  jobs : String → Option ExternalDataJob
  latest_run : Nat → Nat → Option ExternalDataJob
  credential_for : Nat → DataWarehouseCredential
  get_columns_probe : String → String → ProbeResult
  get_columns : String → String → ColumnsResult
  lookup_raises : String → Bool
  delete_raises : Bool

/-- The explicit database / observation state threaded through the
orchestrator: catalog tables, schema records, a fresh-id counter, the log
stream, and counters recording probe calls, credential fetches and bucket
deletions. -/
structure DB where
  tables : List DataWarehouseTable
  schemas : List ExternalDataSchema
  next_table_id : Nat
  logs : List String
  probe_calls : List (String × String)
  credential_fetches : Nat
  delete_calls : Nat
  deleted_jobs : List Nat
deriving Repr

/-- Errors that escape `validate_schema_and_update_table`: a missing job
record for the run id, or an unguarded column-refresh failure. -/
inductive SyncError where
  | job_not_found
  | column_refresh_failed (table_name : String) (url_pattern : String)
deriving DecidableEq, Repr

/-- Python's `str.lower()` on the ASCII names used here. -/
def toLowerStr (s : String) : String :=
  String.mk (s.data.map Char.toLower)

/-- Helper for `camel_to_snake_case`: insert an underscore before every
uppercase character (applied to all characters after the first). -/
def camelSnakeAux : List Char → List Char
  | [] => []
  | c :: cs =>
      if c.isUpper then '_' :: c :: camelSnakeAux cs
      else c :: camelSnakeAux cs

/-- Modelled from the spec: `posthog.utils.camel_to_snake_case` (outside the
given sources) — "the snake-cased (normalized) schema name": an underscore is
inserted before every non-initial uppercase letter and the result is
lower-cased. -/
def camel_to_snake_case (name : String) : String :=
  match name.data with
  | [] => ""
  | c :: cs => toLowerStr (String.mk (c :: camelSnakeAux cs))

/-- Modelled from the spec: the catalog store's
`getBySchemaId(schema_id, team_id) -> Table | not-found`: the table linked to
this schema's identifier, scoped to the team. -/
def get_table_by_schema_id (db : DB) (schema_id : String) (team_id : Nat) :
    Option DataWarehouseTable :=
  match db.schemas.find? (fun s => s.id == schema_id && s.team_id == team_id) with
  | none => none
  | some s =>
      match s.table with
      | none => none
      | some tid => db.tables.find? (fun t => t.id == tid)

/-- Modelled from the spec: the catalog store's `save(table)`: persist the row
with this primary key. -/
def asave_datawarehousetable (db : DB) (t : DataWarehouseTable) : DB :=
  { db with tables := db.tables.map (fun x => if x.id == t.id then t else x) }

/-- Modelled from the spec: the catalog store's `create(...)`: insert a new
table row, built from the probed descriptor fields and the pipeline's
external source id, with a fresh primary key and an empty column list. -/
def acreate_datawarehousetable (db : DB) (external_data_source_id : Nat)
    (d : SchemaDescriptor) : DataWarehouseTable × DB :=
  let t : DataWarehouseTable :=
    { id := db.next_table_id
      credential := d.credential
      name := d.name
      format := d.format
      url_pattern := d.url_pattern
      team_id := d.team_id
      external_data_source_id := some external_data_source_id
      columns := [] }
  (t, { db with tables := db.tables ++ [t], next_table_id := db.next_table_id + 1 })

/-- Modelled from the spec: the schema store's
`getById(schema_id, team_id) -> Schema | not-found`. -/
def aget_schema_by_id (db : DB) (schema_id : String) (team_id : Nat) :
    Option ExternalDataSchema :=
  db.schemas.find? (fun s => s.id == schema_id && s.team_id == team_id)

/-- Modelled from the spec: the schema store's `save(schema)`: persist the
record with this primary key. -/
def asave_external_data_schema (db : DB) (s : ExternalDataSchema) : DB :=
  { db with schemas := db.schemas.map (fun x => if x.id == s.id then s else x) }

/-- The candidate table name computed by the orchestrator for a schema:
the pipeline prefix (empty when absent), the pipeline's source type, an
underscore and the schema name, all lower-cased. -/
def mk_table_name (job : ExternalDataJob) (schema_name : String) : String :=
  toLowerStr ((job.pipeline.prefix_str.getD "") ++ job.pipeline.source_type
    ++ "_" ++ schema_name)

/-- The storage URL pattern computed by the orchestrator for a schema: the
job's URL-pattern function applied to the snake-cased schema name. -/
def mk_url_pattern (job : ExternalDataJob) (schema_name : String) : String :=
  job.url_pattern_by_schema (camel_to_snake_case schema_name)

/-- Errors raised by `validate_schema` (the probe). -/
inductive ProbeError where
  | serverException (code : Int)
  | unknown
deriving DecidableEq, Repr

/-- The probe `validate_schema`: builds a transient, unsaved
`DataWarehouseTable` from the parameters, reads its columns with
`safe_expose_ch_error=False` (the transient object, together with the column
list stored on it, is then discarded) and returns the parameter dict. -/
def validate_schema (env : Env) (credential : DataWarehouseCredential)
    (table_name : String) (new_url_pattern : String) (team_id : Nat) :
    Except ProbeError SchemaDescriptor :=
  match env.get_columns_probe table_name new_url_pattern with
  | ProbeResult.serverException code => Except.error (ProbeError.serverException code)
  | ProbeResult.otherError => Except.error ProbeError.unknown
  | ProbeResult.ok _cols =>
      Except.ok
        { credential := credential
          name := table_name
          format := "Parquet"
          url_pattern := new_url_pattern
          team_id := team_id }

/-- The `try get_table_by_schema_id / raise-if-falsy / except: None` block of
the orchestrator, as an option: only when a previous successful run exists is
the lookup attempted, and a lookup that raises or finds nothing yields
`none`. -/
def lookup_existing_table (env : Env) (last_successful_job : Option ExternalDataJob)
    (db : DB) (schema_id : String) (team_id : Nat) : Option DataWarehouseTable :=
  match last_successful_job with
  | none => none
  | some _ =>
      if env.lookup_raises schema_id then none
      else get_table_by_schema_id db schema_id team_id

/-- The create-or-update step of the orchestrator: when an existing table was
found, update only its URL pattern and save it; otherwise create a new table
from the probed descriptor, linked to the pipeline's external source id.
Returns the reconciled table together with the database. -/
def reconcile_table (env : Env) (job : ExternalDataJob)
    (last_successful_job : Option ExternalDataJob) (team_id : Nat) (db : DB)
    (schema_id : String) (new_url_pattern : String) (data : SchemaDescriptor) :
    DataWarehouseTable × DB :=
  match lookup_existing_table env last_successful_job db schema_id team_id with
  | some t =>
      let t' := { t with url_pattern := new_url_pattern }
      (t', asave_datawarehousetable db t')
  | none => acreate_datawarehousetable db job.pipeline.id data

/-- The tail of the loop body after the create-or-update step: re-read the
reconciled table's columns (unguarded — a failure escapes), save the table,
then re-fetch the schema record and, when it still exists, attach the table
and stamp `last_synced_at` with the job's creation time. -/
def refresh_and_update_schema (env : Env) (job : ExternalDataJob) (db : DB)
    (table_created : DataWarehouseTable) (schema_id : String) :
    Except (SyncError × DB) DB :=
  match env.get_columns table_created.name table_created.url_pattern with
  | ColumnsResult.error =>
      Except.error
        (SyncError.column_refresh_failed table_created.name table_created.url_pattern,
          db)
  | ColumnsResult.ok cols =>
      let table_final := { table_created with columns := cols }
      let db2 := asave_datawarehousetable db table_final
      match aget_schema_by_id db2 schema_id job.team_id with
      | none => Except.ok db2
      | some schema_model =>
          Except.ok (asave_external_data_schema db2
            { schema_model with
                table := some table_final.id
                last_synced_at := some job.created_at })

/-- The body of the per-schema loop of `validate_schema_and_update_table`:
compute the candidate table name and URL pattern, probe, and on success
reconcile the catalog entry, refresh its columns and update the schema
record's metadata.  Probe failures are absorbed (`continue`); the column
refresh is unguarded, so its failure escapes carrying the state persisted so
far. -/
def process_schema (env : Env) (job : ExternalDataJob)
    (last_successful_job : Option ExternalDataJob)
    (credential : DataWarehouseCredential) (team_id : Nat) (db : DB)
    (s : String × String) : Except (SyncError × DB) DB :=
  let schema_id := s.1
  let schema_name := s.2
  let table_name := mk_table_name job schema_name
  let new_url_pattern := mk_url_pattern job schema_name
  let db0 := { db with probe_calls := db.probe_calls ++ [(table_name, new_url_pattern)] }
  match validate_schema env credential table_name new_url_pattern team_id with
  | Except.error (ProbeError.serverException code) =>
      if code == 636 then
        Except.ok { db0 with logs := db0.logs ++
          ["Data Warehouse: No data for schema " ++ schema_name
            ++ " for external data job " ++ toString job.pk] }
      else
        Except.ok db0
  | Except.error ProbeError.unknown =>
      Except.ok { db0 with logs := db0.logs ++
        ["Data Warehouse: Could not validate schema for external data job "
          ++ toString job.pk] }
  | Except.ok data =>
      let step := reconcile_table env job last_successful_job team_id db0
        schema_id new_url_pattern data
      refresh_and_update_schema env job step.2 step.1 schema_id

/-- The per-schema loop: process the schemas in order, stopping only when an
unguarded exception escapes the loop body. -/
def process_schemas (env : Env) (job : ExternalDataJob)
    (last_successful_job : Option ExternalDataJob)
    (credential : DataWarehouseCredential) (team_id : Nat) :
    List (String × String) → DB → Except (SyncError × DB) DB
  | [], db => Except.ok db
  | s :: rest, db =>
      match process_schema env job last_successful_job credential team_id db s with
      | Except.error e => Except.error e
      | Except.ok db' =>
          process_schemas env job last_successful_job credential team_id rest db'

/-- `validate_schema_and_update_table(run_id, team_id, schemas)`: fetch the
job (failing the whole call when it is missing), fetch the previous
successful run and the credential, run the per-schema loop, then — when a
previous successful run exists — delete its backing bucket data, logging and
swallowing any deletion failure. -/
def validate_schema_and_update_table (env : Env) (db : DB) (run_id : String)
    (team_id : Nat) (schemas : List (String × String)) :
    Except (SyncError × DB) DB :=
  match env.jobs run_id with
  | none => Except.error (SyncError.job_not_found, db)
  | some job =>
      let last_successful_job := env.latest_run job.team_id job.pipeline_id
      let credential := env.credential_for job.team_id
      let db0 := { db with credential_fetches := db.credential_fetches + 1 }
      match process_schemas env job last_successful_job credential team_id schemas db0 with
      | Except.error e => Except.error e
      | Except.ok db1 =>
          match last_successful_job with
          | none => Except.ok db1
          | some lj =>
              let db2 := { db1 with delete_calls := db1.delete_calls + 1 }
              if env.delete_raises then
                Except.ok { db2 with logs := db2.logs ++
                  ["Data Warehouse: Could not delete deprecated data source "
                    ++ toString lj.pk] }
              else
                Except.ok { db2 with deleted_jobs := db2.deleted_jobs ++ [lj.pk] }

/-! ### Small facts about the state operations -/

/-- The database carried by an outcome: the final state on success, the state
persisted up to the raise point on failure. -/
def outcome_db : Except (SyncError × DB) DB → DB
  | Except.ok d => d
  | Except.error e => e.2

/-- A concrete job: team 7, pipeline 3, source type "Stripe", no prefix. -/
def jobA : ExternalDataJob :=
  { pk := 1, team_id := 7, pipeline_id := 3,
    pipeline := { id := 3, prefix_str := none, source_type := "Stripe" },
    created_at := 100,
    url_pattern_by_schema := fun s => "s3://bucket/" ++ s }

/-- A concrete credential. -/
def credA : DataWarehouseCredential := { id := 1, access_key := "k", access_secret := "x" }

/-- A concrete initial database: no tables, one schema record "s1" for team 7. -/
def dbA : DB :=
  { tables := [], schemas := [{ id := "s1", team_id := 7, table := none, last_synced_at := none }],
    next_table_id := 0, logs := [], probe_calls := [], credential_fetches := 0,
    delete_calls := 0, deleted_jobs := [] }

/-- A concrete happy-path environment: `jobA` is registered under run id
"run1", there is no previous successful run, probes return columns
`[("a", "String")]` and the column refresh returns `[("b", "Int")]`. -/
def envA : Env :=
  { jobs := fun r => if r == "run1" then some jobA else none,
    latest_run := fun _ _ => none,
    credential_for := fun _ => credA,
    get_columns_probe := fun _ _ => ProbeResult.ok [("a", "String")],
    get_columns := fun _ _ => ColumnsResult.ok [("b", "Int")],
    lookup_raises := fun _ => false,
    delete_raises := false }

/-- Like `envA` but the probe raises a `ServerException` with code 636
(the recognized no-data code). -/
def envSrv636 : Env :=
  { envA with get_columns_probe := fun _ _ => ProbeResult.serverException 636 }

/-- Like `envA` but the probe raises a `ServerException` with code 500. -/
def envSrv500 : Env :=
  { envA with get_columns_probe := fun _ _ => ProbeResult.serverException 500 }

/-- Like `envA` but the probe raises a generic (non-`ServerException`)
error. -/
def envOther : Env :=
  { envA with get_columns_probe := fun _ _ => ProbeResult.otherError }

/-- Like `envA` but the second (unguarded) column read fails. -/
def envRF : Env :=
  { envA with get_columns := fun _ _ => ColumnsResult.error }

/-- The error of an outcome, when there is one. -/
def outcome_error : Except (SyncError × DB) DB → Option SyncError
  | Except.error e => some e.1
  | Except.ok _ => none

/-- An existing catalog table: id 5, named "old_name", URL "old_url". -/
def tableB : DataWarehouseTable :=
  { id := 5, credential := credA, name := "old_name", format := "Parquet",
    url_pattern := "old_url", team_id := 7, external_data_source_id := some 3,
    columns := [("x", "Int")] }

/-- A database whose schema record "s1" links to the existing `tableB`. -/
def dbB : DB :=
  { tables := [tableB],
    schemas := [{ id := "s1", team_id := 7, table := some 5, last_synced_at := none }],
    next_table_id := 6, logs := [], probe_calls := [], credential_fetches := 0,
    delete_calls := 0, deleted_jobs := [] }

/-- A database with one catalog table and no schema records (the schema was
deleted concurrently). -/
def dbC : DB :=
  { tables := [tableB], schemas := [], next_table_id := 6, logs := [],
    probe_calls := [], credential_fetches := 0, delete_calls := 0,
    deleted_jobs := [] }

/-- A previous successful job for the same team and pipeline as `jobA`. -/
def jobPrev : ExternalDataJob :=
  { pk := 0, team_id := 7, pipeline_id := 3,
    pipeline := { id := 3, prefix_str := none, source_type := "Stripe" },
    created_at := 50,
    url_pattern_by_schema := fun s => "s3://bucket-old/" ++ s }

/-- Like `envA` but with `jobPrev` as the previous successful run. -/
def envPrev : Env :=
  { envA with latest_run := fun _ _ => some jobPrev }

/-- The second run's job: same team, pipeline and URL-pattern function as
`jobA`, a later creation time. -/
def jobB : ExternalDataJob :=
  { pk := 2, team_id := 7, pipeline_id := 3,
    pipeline := { id := 3, prefix_str := none, source_type := "Stripe" },
    created_at := 200,
    url_pattern_by_schema := fun s => "s3://bucket/" ++ s }

/-- The second run's environment: `jobB` under run id "run2", with `jobA` as
the previous successful run and the same column oracles as `envA`. -/
def envB2 : Env :=
  { jobs := fun r => if r == "run2" then some jobB else none,
    latest_run := fun _ _ => some jobA,
    credential_for := fun _ => credA,
    get_columns_probe := fun _ _ => ProbeResult.ok [("a", "String")],
    get_columns := fun _ _ => ColumnsResult.ok [("b", "Int")],
    lookup_raises := fun _ => false,
    delete_raises := false }

/-- The reconciled linkage a completed run establishes for a schema: its
record points to a catalog table carrying the computed name, the computed URL
pattern and the refreshed column list. -/
def linked_ok (pc : String → String → List (String × String))
    (job : ExternalDataJob) (db : DB) (s : String × String) : Prop :=
  ∃ r ∈ db.schemas, r.id = s.1 ∧ r.team_id = job.team_id ∧
    ∃ t ∈ db.tables, r.table = some t.id ∧
      t.name = mk_table_name job s.2 ∧
      t.url_pattern = mk_url_pattern job s.2 ∧
      t.columns = pc (mk_table_name job s.2) (mk_url_pattern job s.2)

@[simp] theorem asave_table_schemas (db : DB) (t : DataWarehouseTable) :
    (asave_datawarehousetable db t).schemas = db.schemas := rfl

@[simp] theorem asave_table_probe_calls (db : DB) (t : DataWarehouseTable) :
    (asave_datawarehousetable db t).probe_calls = db.probe_calls := rfl

@[simp] theorem asave_table_logs (db : DB) (t : DataWarehouseTable) :
    (asave_datawarehousetable db t).logs = db.logs := rfl

@[simp] theorem asave_table_next (db : DB) (t : DataWarehouseTable) :
    (asave_datawarehousetable db t).next_table_id = db.next_table_id := rfl

@[simp] theorem asave_table_delete_calls (db : DB) (t : DataWarehouseTable) :
    (asave_datawarehousetable db t).delete_calls = db.delete_calls := rfl

@[simp] theorem asave_table_deleted_jobs (db : DB) (t : DataWarehouseTable) :
    (asave_datawarehousetable db t).deleted_jobs = db.deleted_jobs := rfl

@[simp] theorem asave_table_credential_fetches (db : DB) (t : DataWarehouseTable) :
    (asave_datawarehousetable db t).credential_fetches = db.credential_fetches := rfl

@[simp] theorem asave_table_tables (db : DB) (t : DataWarehouseTable) :
    (asave_datawarehousetable db t).tables =
      db.tables.map (fun x => if x.id == t.id then t else x) := rfl

@[simp] theorem acreate_snd_schemas (db : DB) (i : Nat) (d : SchemaDescriptor) :
    (acreate_datawarehousetable db i d).2.schemas = db.schemas := rfl

@[simp] theorem acreate_snd_probe_calls (db : DB) (i : Nat) (d : SchemaDescriptor) :
    (acreate_datawarehousetable db i d).2.probe_calls = db.probe_calls := rfl

@[simp] theorem acreate_snd_logs (db : DB) (i : Nat) (d : SchemaDescriptor) :
    (acreate_datawarehousetable db i d).2.logs = db.logs := rfl

@[simp] theorem acreate_snd_delete_calls (db : DB) (i : Nat) (d : SchemaDescriptor) :
    (acreate_datawarehousetable db i d).2.delete_calls = db.delete_calls := rfl

@[simp] theorem acreate_snd_deleted_jobs (db : DB) (i : Nat) (d : SchemaDescriptor) :
    (acreate_datawarehousetable db i d).2.deleted_jobs = db.deleted_jobs := rfl

@[simp] theorem acreate_snd_credential_fetches (db : DB) (i : Nat) (d : SchemaDescriptor) :
    (acreate_datawarehousetable db i d).2.credential_fetches = db.credential_fetches := rfl

@[simp] theorem acreate_snd_next (db : DB) (i : Nat) (d : SchemaDescriptor) :
    (acreate_datawarehousetable db i d).2.next_table_id = db.next_table_id + 1 := rfl

@[simp] theorem acreate_snd_tables (db : DB) (i : Nat) (d : SchemaDescriptor) :
    (acreate_datawarehousetable db i d).2.tables =
      db.tables ++ [(acreate_datawarehousetable db i d).1] := rfl

@[simp] theorem acreate_fst_id (db : DB) (i : Nat) (d : SchemaDescriptor) :
    (acreate_datawarehousetable db i d).1.id = db.next_table_id := rfl

@[simp] theorem acreate_fst (db : DB) (i : Nat) (d : SchemaDescriptor) :
    (acreate_datawarehousetable db i d).1 =
      { id := db.next_table_id, credential := d.credential, name := d.name,
        format := d.format, url_pattern := d.url_pattern, team_id := d.team_id,
        external_data_source_id := some i, columns := [] } := rfl

@[simp] theorem asave_schema_tables (db : DB) (s : ExternalDataSchema) :
    (asave_external_data_schema db s).tables = db.tables := rfl

@[simp] theorem asave_schema_probe_calls (db : DB) (s : ExternalDataSchema) :
    (asave_external_data_schema db s).probe_calls = db.probe_calls := rfl

@[simp] theorem asave_schema_logs (db : DB) (s : ExternalDataSchema) :
    (asave_external_data_schema db s).logs = db.logs := rfl

@[simp] theorem asave_schema_next (db : DB) (s : ExternalDataSchema) :
    (asave_external_data_schema db s).next_table_id = db.next_table_id := rfl

@[simp] theorem asave_schema_delete_calls (db : DB) (s : ExternalDataSchema) :
    (asave_external_data_schema db s).delete_calls = db.delete_calls := rfl

@[simp] theorem asave_schema_deleted_jobs (db : DB) (s : ExternalDataSchema) :
    (asave_external_data_schema db s).deleted_jobs = db.deleted_jobs := rfl

@[simp] theorem asave_schema_credential_fetches (db : DB) (s : ExternalDataSchema) :
    (asave_external_data_schema db s).credential_fetches = db.credential_fetches := rfl

@[simp] theorem asave_schema_schemas (db : DB) (s : ExternalDataSchema) :
    (asave_external_data_schema db s).schemas =
      db.schemas.map (fun x => if x.id == s.id then s else x) := rfl

@[simp] theorem get_table_probe_calls_irrelevant (db : DB) (p : List (String × String))
    (sid : String) (tid : Nat) :
    get_table_by_schema_id { db with probe_calls := p } sid tid =
      get_table_by_schema_id db sid tid := rfl

@[simp] theorem aget_schema_probe_calls_irrelevant (db : DB) (p : List (String × String))
    (sid : String) (tid : Nat) :
    aget_schema_by_id { db with probe_calls := p } sid tid =
      aget_schema_by_id db sid tid := rfl

/-! ### Concrete fixtures used by witnesses and counterexamples -/

@[simp] theorem reconcile_snd_probe_calls (env job last team db sid up d) :
    (reconcile_table env job last team db sid up d).2.probe_calls = db.probe_calls := by
  unfold reconcile_table
  split <;> simp

@[simp] theorem reconcile_snd_logs (env job last team db sid up d) :
    (reconcile_table env job last team db sid up d).2.logs = db.logs := by
  unfold reconcile_table
  split <;> simp

@[simp] theorem reconcile_snd_schemas (env job last team db sid up d) :
    (reconcile_table env job last team db sid up d).2.schemas = db.schemas := by
  unfold reconcile_table
  split <;> simp

@[simp] theorem reconcile_snd_delete_calls (env job last team db sid up d) :
    (reconcile_table env job last team db sid up d).2.delete_calls = db.delete_calls := by
  unfold reconcile_table
  split <;> simp

@[simp] theorem reconcile_snd_deleted_jobs (env job last team db sid up d) :
    (reconcile_table env job last team db sid up d).2.deleted_jobs = db.deleted_jobs := by
  unfold reconcile_table
  split <;> simp

@[simp] theorem reconcile_snd_credential_fetches (env job last team db sid up d) :
    (reconcile_table env job last team db sid up d).2.credential_fetches =
      db.credential_fetches := by
  unfold reconcile_table
  split <;> simp

@[simp] theorem refresh_outcome_probe_calls (env job db tc sid) :
    (outcome_db (refresh_and_update_schema env job db tc sid)).probe_calls =
      db.probe_calls := by
  unfold refresh_and_update_schema
  split
  · simp [outcome_db]
  · dsimp only
    split <;> simp [outcome_db]

@[simp] theorem refresh_outcome_logs (env job db tc sid) :
    (outcome_db (refresh_and_update_schema env job db tc sid)).logs = db.logs := by
  unfold refresh_and_update_schema
  split
  · simp [outcome_db]
  · dsimp only
    split <;> simp [outcome_db]

@[simp] theorem refresh_outcome_delete_calls (env job db tc sid) :
    (outcome_db (refresh_and_update_schema env job db tc sid)).delete_calls =
      db.delete_calls := by
  unfold refresh_and_update_schema
  split
  · simp [outcome_db]
  · dsimp only
    split <;> simp [outcome_db]

@[simp] theorem refresh_outcome_deleted_jobs (env job db tc sid) :
    (outcome_db (refresh_and_update_schema env job db tc sid)).deleted_jobs =
      db.deleted_jobs := by
  unfold refresh_and_update_schema
  split
  · simp [outcome_db]
  · dsimp only
    split <;> simp [outcome_db]

@[simp] theorem refresh_outcome_credential_fetches (env job db tc sid) :
    (outcome_db (refresh_and_update_schema env job db tc sid)).credential_fetches =
      db.credential_fetches := by
  unfold refresh_and_update_schema
  split
  · simp [outcome_db]
  · dsimp only
    split <;> simp [outcome_db]

/-! ### C9: probe arguments -/

/-- C9: for every schema in the input list, the candidate table name passed
to the probe is the pipeline prefix (empty when absent) concatenated with the
pipeline's source type, an underscore and the schema name, all lower-cased,
and the storage URL pattern is the job's URL-pattern function applied to the
snake-cased schema name — whatever the outcome of processing the schema. -/
theorem c9_probe_arguments (env : Env) (job : ExternalDataJob)
    (last : Option ExternalDataJob) (cred : DataWarehouseCredential)
    (team_id : Nat) (db : DB) (sid nm : String) :
    (outcome_db (process_schema env job last cred team_id db (sid, nm))).probe_calls =
      db.probe_calls ++
        [(toLowerStr ((job.pipeline.prefix_str.getD "") ++ job.pipeline.source_type
            ++ "_" ++ nm),
          job.url_pattern_by_schema (camel_to_snake_case nm))] := by
  have hname : mk_table_name job nm =
      toLowerStr ((job.pipeline.prefix_str.getD "") ++ job.pipeline.source_type
        ++ "_" ++ nm) := rfl
  have hurl : mk_url_pattern job nm = job.url_pattern_by_schema (camel_to_snake_case nm) := rfl
  rw [← hname, ← hurl]
  simp only [process_schema, validate_schema]
  rcases hpu : env.get_columns_probe (mk_table_name job nm) (mk_url_pattern job nm) with
    c | code | _ <;> simp only [hpu]
  · simp
  · split <;> simp [outcome_db]
  · simp [outcome_db]

/-! ### C10: empty schema list -/

/-- C10: invoking `validate_schema_and_update_table` with an empty schema list
performs no probe, catalog or schema-metadata operation, still fetches or
creates the credential, still deletes the previous successful run's backing
bucket data when one exists, and completes without error. -/
theorem c10_empty_schemas (env : Env) (db : DB) (run_id : String) (team_id : Nat)
    (job : ExternalDataJob) (hjob : env.jobs run_id = some job) :
    ∃ db', validate_schema_and_update_table env db run_id team_id [] = Except.ok db' ∧
      db'.probe_calls = db.probe_calls ∧
      db'.tables = db.tables ∧
      db'.schemas = db.schemas ∧
      db'.credential_fetches = db.credential_fetches + 1 ∧
      db'.delete_calls = db.delete_calls +
        (if (env.latest_run job.team_id job.pipeline_id).isSome then 1 else 0) ∧
      (∀ lj, env.latest_run job.team_id job.pipeline_id = some lj →
        env.delete_raises = false → db'.deleted_jobs = db.deleted_jobs ++ [lj.pk]) := by
  unfold validate_schema_and_update_table
  rw [hjob]
  dsimp only
  rcases hl : env.latest_run job.team_id job.pipeline_id with _ | lj
  · simp only [process_schemas]
    exact ⟨_, rfl, rfl, rfl, rfl, rfl, by simp, by simp⟩
  · simp only [process_schemas]
    split
    · exact ⟨_, rfl, rfl, rfl, rfl, rfl, by simp, fun lj' h1 h2 => by simp_all⟩
    · exact ⟨_, rfl, rfl, rfl, rfl, rfl, by simp, fun lj' h1 h2 => by simp_all⟩

/-- Witness for C10 at the concrete fixture: `envA`, `dbA`, run "run1". -/
theorem c10_empty_schemas_witness :
    ∃ db', validate_schema_and_update_table envA dbA "run1" 7 [] = Except.ok db' ∧
      db'.probe_calls = dbA.probe_calls ∧
      db'.tables = dbA.tables ∧
      db'.schemas = dbA.schemas ∧
      db'.credential_fetches = dbA.credential_fetches + 1 ∧
      db'.delete_calls = dbA.delete_calls +
        (if (envA.latest_run jobA.team_id jobA.pipeline_id).isSome then 1 else 0) ∧
      (∀ lj, envA.latest_run jobA.team_id jobA.pipeline_id = some lj →
        envA.delete_raises = false → db'.deleted_jobs = dbA.deleted_jobs ++ [lj.pk]) :=
  c10_empty_schemas envA dbA "run1" 7 jobA rfl

/-! ### C2: probe failure taxonomy -/

/-- Counterexample to C2 as stated: when the probe raises a `ServerException`
whose code is not 636 (here 500), the schema is skipped and the batch
completes, but nothing at all is logged — the claim's "the failure is logged
with full context" fails for this error. -/
theorem c2_counterexample :
    ∃ db', validate_schema_and_update_table envSrv500 dbA "run1" 7 [("s1", "Users")] =
        Except.ok db' ∧
      db'.logs = [] ∧
      db'.tables = [] :=
  ⟨_, rfl, rfl, rfl⟩

/-- C2 (amended): a probe `ServerException` with code 636 skips the schema
(no table created or updated) and logs the no-data message; a
`ServerException` with any other code skips the schema silently, with no log;
any other probe error skips the schema and logs a message carrying the job id
(but not the schema name).  In every case the loop body returns normally, so
the batch is not aborted. -/
theorem c2_amended (env : Env) (job : ExternalDataJob)
    (last : Option ExternalDataJob) (cred : DataWarehouseCredential)
    (team_id : Nat) (db : DB) (sid nm : String) :
    (env.get_columns_probe (mk_table_name job nm) (mk_url_pattern job nm) =
        ProbeResult.serverException 636 →
      process_schema env job last cred team_id db (sid, nm) = Except.ok
        { db with
            probe_calls := db.probe_calls ++ [(mk_table_name job nm, mk_url_pattern job nm)],
            logs := db.logs ++ ["Data Warehouse: No data for schema " ++ nm
              ++ " for external data job " ++ toString job.pk] }) ∧
    (∀ code : Int, code ≠ 636 →
      env.get_columns_probe (mk_table_name job nm) (mk_url_pattern job nm) =
        ProbeResult.serverException code →
      process_schema env job last cred team_id db (sid, nm) = Except.ok
        { db with
            probe_calls := db.probe_calls ++ [(mk_table_name job nm, mk_url_pattern job nm)] }) ∧
    (env.get_columns_probe (mk_table_name job nm) (mk_url_pattern job nm) =
        ProbeResult.otherError →
      process_schema env job last cred team_id db (sid, nm) = Except.ok
        { db with
            probe_calls := db.probe_calls ++ [(mk_table_name job nm, mk_url_pattern job nm)],
            logs := db.logs ++ ["Data Warehouse: Could not validate schema for external data job "
              ++ toString job.pk] }) := by
  refine ⟨fun h => ?_, fun code hne h => ?_, fun h => ?_⟩
  · simp [process_schema, validate_schema, h]
  · simp [process_schema, validate_schema, h, hne]
  · simp [process_schema, validate_schema, h]

/-- Witness for C2 (amended): the three probe-failure cases at concrete
environments, each obtained by applying `c2_amended`. -/
theorem c2_amended_witness :
    (process_schema envSrv636 jobA none credA 7 dbA ("s1", "Users") = Except.ok
      { dbA with
          probe_calls := dbA.probe_calls ++ [(mk_table_name jobA "Users", mk_url_pattern jobA "Users")],
          logs := dbA.logs ++ ["Data Warehouse: No data for schema " ++ "Users"
            ++ " for external data job " ++ toString jobA.pk] }) ∧
    (process_schema envSrv500 jobA none credA 7 dbA ("s1", "Users") = Except.ok
      { dbA with
          probe_calls := dbA.probe_calls ++ [(mk_table_name jobA "Users", mk_url_pattern jobA "Users")] }) ∧
    (process_schema envOther jobA none credA 7 dbA ("s1", "Users") = Except.ok
      { dbA with
          probe_calls := dbA.probe_calls ++ [(mk_table_name jobA "Users", mk_url_pattern jobA "Users")],
          logs := dbA.logs ++ ["Data Warehouse: Could not validate schema for external data job "
            ++ toString jobA.pk] }) :=
  ⟨(c2_amended envSrv636 jobA none credA 7 dbA "s1" "Users").1 rfl,
   (c2_amended envSrv500 jobA none credA 7 dbA "s1" "Users").2.1 500 (by decide) rfl,
   (c2_amended envOther jobA none credA 7 dbA "s1" "Users").2.2 rfl⟩

/-! ### C1: exception propagation -/

/-- If the column refresh cannot fail, the tail of the loop body returns
normally. -/
theorem refresh_no_raise (env : Env) (job : ExternalDataJob) (db : DB)
    (tc : DataWarehouseTable) (sid : String)
    (hcols : ∀ n u, ∃ c, env.get_columns n u = ColumnsResult.ok c) :
    ∃ db', refresh_and_update_schema env job db tc sid = Except.ok db' := by
  obtain ⟨c, hc⟩ := hcols tc.name tc.url_pattern
  unfold refresh_and_update_schema
  rw [hc]
  dsimp only
  split <;> exact ⟨_, rfl⟩

/-- If the column refresh cannot fail, the loop body returns normally for
every schema, whatever the probe and the lookup do. -/
theorem process_schema_no_raise (env : Env) (job : ExternalDataJob)
    (last : Option ExternalDataJob) (cred : DataWarehouseCredential)
    (team_id : Nat) (db : DB) (s : String × String)
    (hcols : ∀ n u, ∃ c, env.get_columns n u = ColumnsResult.ok c) :
    ∃ db', process_schema env job last cred team_id db s = Except.ok db' := by
  obtain ⟨sid, nm⟩ := s
  simp only [process_schema, validate_schema]
  rcases hpu : env.get_columns_probe (mk_table_name job nm) (mk_url_pattern job nm) with
    c | code | _ <;> simp only [hpu]
  · exact refresh_no_raise env job _ _ sid hcols
  · split <;> exact ⟨_, rfl⟩
  · exact ⟨_, rfl⟩

/-- If the column refresh cannot fail, the whole loop returns normally. -/
theorem process_schemas_no_raise (env : Env) (job : ExternalDataJob)
    (last : Option ExternalDataJob) (cred : DataWarehouseCredential)
    (team_id : Nat)
    (hcols : ∀ n u, ∃ c, env.get_columns n u = ColumnsResult.ok c) :
    ∀ (l : List (String × String)) (db : DB),
      ∃ db', process_schemas env job last cred team_id l db = Except.ok db' := by
  intro l
  induction l with
  | nil => exact fun db => ⟨db, rfl⟩
  | cons s rest ih =>
      intro db
      obtain ⟨d1, h1⟩ := process_schema_no_raise env job last cred team_id db s hcols
      obtain ⟨d2, h2⟩ := ih d1
      refine ⟨d2, ?_⟩
      simp only [process_schemas, h1]
      exact h2

/-- Counterexample to C1 as stated: the job record for "run1" exists, yet the
invocation fails — with an error other than a missing job record — because
the unguarded column refresh inside the per-schema processing raises and
propagates out of the call. -/
theorem c1_counterexample :
    envRF.jobs "run1" = some jobA ∧
    outcome_error (validate_schema_and_update_table envRF dbA "run1" 7 [("s1", "Users")]) =
      some (SyncError.column_refresh_failed "stripe_users" "s3://bucket/users") ∧
    SyncError.column_refresh_failed "stripe_users" "s3://bucket/users" ≠
      SyncError.job_not_found :=
  ⟨rfl, by decide, by decide⟩

/-- C1 (amended): exceptions from the probe, from the catalog lookup and from
the bucket deletion never propagate out of the call; but the post-probe
persistence steps are unguarded — modelled here by the column refresh — so
the call is guaranteed to return normally (given the job record exists)
exactly when no column refresh fails. -/
theorem c1_amended (env : Env) (db : DB) (run_id : String) (team_id : Nat)
    (schemas : List (String × String)) (job : ExternalDataJob)
    (hjob : env.jobs run_id = some job)
    (hcols : ∀ n u, ∃ c, env.get_columns n u = ColumnsResult.ok c) :
    ∃ db', validate_schema_and_update_table env db run_id team_id schemas =
      Except.ok db' := by
  unfold validate_schema_and_update_table
  rw [hjob]
  dsimp only
  obtain ⟨d1, h1⟩ := process_schemas_no_raise env job
    (env.latest_run job.team_id job.pipeline_id) (env.credential_for job.team_id)
    team_id hcols schemas { db with credential_fetches := db.credential_fetches + 1 }
  rw [h1]
  rcases env.latest_run job.team_id job.pipeline_id with _ | lj
  · exact ⟨d1, rfl⟩
  · dsimp only
    split <;> exact ⟨_, rfl⟩

/-- Witness for C1 (amended): a two-schema batch in the concrete happy-path
environment returns normally. -/
theorem c1_amended_witness :
    ∃ db', validate_schema_and_update_table envA dbA "run1" 7
        [("s1", "Users"), ("s2", "Orders")] = Except.ok db' :=
  c1_amended envA dbA "run1" 7 [("s1", "Users"), ("s2", "Orders")] jobA rfl
    (fun _ _ => ⟨[("b", "Int")], rfl⟩)

/-! ### C8: probe result and column reuse -/

/-- Counterexample to C8 as stated: in `envA` the probe reads columns
`[("a", "String")]`, yet the table persisted for the schema carries
`[("b", "Int")]` — the column list read during the probe was stored on a
transient descriptor that is discarded, not on a descriptor the reconciler
reuses; the reconciler re-reads the columns itself. -/
theorem c8_counterexample :
    envA.get_columns_probe "stripe_users" "s3://bucket/users" =
      ProbeResult.ok [("a", "String")] ∧
    ∃ db', validate_schema_and_update_table envA dbA "run1" 7 [("s1", "Users")] =
        Except.ok db' ∧
      db'.tables.map (fun t => t.columns) = [[("b", "Int")]] ∧
      [("b", "Int")] ≠ [("a", "String")] :=
  ⟨rfl, _, rfl, by decide, by decide⟩

/-- C8 (amended): on success the probe returns exactly the descriptor fields
(credential, name, format="Parquet", url_pattern, team_id) — a value carrying
no column list — and the reconciler re-reads the column list itself before
final persistence, storing that re-read list on the reconciled table. -/
theorem c8_amended (env : Env) :
    (∀ (cred : DataWarehouseCredential) (tn up : String) (team : Nat)
        (c : List (String × String)),
      env.get_columns_probe tn up = ProbeResult.ok c →
      validate_schema env cred tn up team = Except.ok
        { credential := cred, name := tn, format := "Parquet",
          url_pattern := up, team_id := team }) ∧
    (∀ (job : ExternalDataJob) (db : DB) (tc : DataWarehouseTable) (sid : String)
        (cols2 : List (String × String)),
      env.get_columns tc.name tc.url_pattern = ColumnsResult.ok cols2 →
      ∃ db', refresh_and_update_schema env job db tc sid = Except.ok db' ∧
        db'.tables = db.tables.map
          (fun x => if x.id == tc.id then { tc with columns := cols2 } else x)) := by
  constructor
  · intro cred tn up team c h
    unfold validate_schema
    rw [h]
  · intro job db tc sid cols2 h
    unfold refresh_and_update_schema
    rw [h]
    dsimp only
    split
    · exact ⟨_, rfl, rfl⟩
    · exact ⟨_, rfl, by simp⟩

/-- Witness for C8 (amended): both halves applied at the concrete fixtures. -/
theorem c8_amended_witness :
    (validate_schema envA credA "stripe_users" "s3://bucket/users" 7 = Except.ok
      { credential := credA, name := "stripe_users", format := "Parquet",
        url_pattern := "s3://bucket/users", team_id := 7 }) ∧
    (∃ db', refresh_and_update_schema envA jobA dbA
        { id := 0, credential := credA, name := "stripe_users", format := "Parquet",
          url_pattern := "s3://bucket/users", team_id := 7,
          external_data_source_id := some 3, columns := [] } "s1" = Except.ok db' ∧
      db'.tables = dbA.tables.map
        (fun x => if x.id == 0 then
          { id := 0, credential := credA, name := "stripe_users", format := "Parquet",
            url_pattern := "s3://bucket/users", team_id := 7,
            external_data_source_id := some 3, columns := [("b", "Int")] } else x)) :=
  ⟨(c8_amended envA).1 credA "stripe_users" "s3://bucket/users" 7 [("a", "String")] rfl,
   (c8_amended envA).2 jobA dbA
     { id := 0, credential := credA, name := "stripe_users", format := "Parquet",
       url_pattern := "s3://bucket/users", team_id := 7,
       external_data_source_id := some 3, columns := [] } "s1" [("b", "Int")] rfl⟩

/-! ### Characterization of the create and update paths -/

/-- Saving a table under a primary key absent from the list leaves the list
unchanged. -/
theorem map_save_absent (l : List DataWarehouseTable) (t : DataWarehouseTable)
    (n : Nat) (h : ∀ x ∈ l, ¬ x.id = n) :
    l.map (fun x => if x.id == n then t else x) = l := by
  induction l with
  | nil => rfl
  | cons a as ih =>
      have ha : (a.id == n) = false := by
        simp [h a (List.mem_cons_self a as)]
      simp only [List.map_cons, ha, Bool.false_eq_true, if_false, List.cons.injEq, true_and]
      exact ih (fun x hx => h x (List.mem_cons_of_mem a hx))

/-- Saving a table equal to every row carrying the written primary key leaves
the list unchanged. -/
theorem map_save_same (l : List DataWarehouseTable) (t : DataWarehouseTable)
    (n : Nat) (h : ∀ x ∈ l, x.id = n → x = t) :
    l.map (fun x => if x.id == n then t else x) = l := by
  induction l with
  | nil => rfl
  | cons a as ih =>
      rcases ha : (a.id == n) with _ | _
      · simp only [List.map_cons, ha, Bool.false_eq_true, if_false, List.cons.injEq, true_and]
        exact ih (fun x hx => h x (List.mem_cons_of_mem a hx))
      · have : a = t := h a (List.mem_cons_self a as) (by simpa using ha)
        simp only [List.map_cons, ha, if_true, List.cons.injEq]
        exact ⟨this.symm, ih (fun x hx => h x (List.mem_cons_of_mem a hx))⟩

@[simp] theorem lookup_probe_calls_irrelevant (env : Env)
    (last : Option ExternalDataJob) (db : DB) (p : List (String × String))
    (sid : String) (team : Nat) :
    lookup_existing_table env last { db with probe_calls := p } sid team =
      lookup_existing_table env last db sid team := by
  unfold lookup_existing_table
  rcases last <;> rfl

@[simp] theorem aget_asave_table (db : DB) (t : DataWarehouseTable)
    (sid : String) (team : Nat) :
    aget_schema_by_id (asave_datawarehousetable db t) sid team =
      aget_schema_by_id db sid team := rfl

/-- When the probe succeeds, the loop body is the reconciliation pipeline
applied to the state with the probe call recorded. -/
theorem process_schema_probe_ok (env : Env) (job : ExternalDataJob)
    (last : Option ExternalDataJob) (cred : DataWarehouseCredential)
    (team_id : Nat) (db : DB) (sid nm : String) (c : List (String × String))
    (hpu : env.get_columns_probe (mk_table_name job nm) (mk_url_pattern job nm) =
      ProbeResult.ok c) :
    process_schema env job last cred team_id db (sid, nm) =
      refresh_and_update_schema env job
        (reconcile_table env job last team_id
          { db with probe_calls := db.probe_calls ++
              [(mk_table_name job nm, mk_url_pattern job nm)] }
          sid (mk_url_pattern job nm)
          { credential := cred, name := mk_table_name job nm, format := "Parquet",
            url_pattern := mk_url_pattern job nm, team_id := team_id }).2
        (reconcile_table env job last team_id
          { db with probe_calls := db.probe_calls ++
              [(mk_table_name job nm, mk_url_pattern job nm)] }
          sid (mk_url_pattern job nm)
          { credential := cred, name := mk_table_name job nm, format := "Parquet",
            url_pattern := mk_url_pattern job nm, team_id := team_id }).1
        sid := by
  simp only [process_schema, validate_schema]
  rw [hpu]

/-- The create-or-update step when no table is found: create. -/
theorem reconcile_table_none (env : Env) (job : ExternalDataJob)
    (last : Option ExternalDataJob) (team : Nat) (db : DB) (sid up : String)
    (d : SchemaDescriptor)
    (h : lookup_existing_table env last db sid team = none) :
    reconcile_table env job last team db sid up d =
      acreate_datawarehousetable db job.pipeline.id d := by
  unfold reconcile_table
  rw [h]

/-- The create-or-update step when a table is found: update its URL pattern
in place and save. -/
theorem reconcile_table_some (env : Env) (job : ExternalDataJob)
    (last : Option ExternalDataJob) (team : Nat) (db : DB) (sid up : String)
    (d : SchemaDescriptor) (t : DataWarehouseTable)
    (h : lookup_existing_table env last db sid team = some t) :
    reconcile_table env job last team db sid up d =
      ({ t with url_pattern := up },
        asave_datawarehousetable db { t with url_pattern := up }) := by
  unfold reconcile_table
  rw [h]

/-- The loop-body tail when the schema record is gone: refresh and save the
table, touch no schema record. -/
theorem refresh_char_norec (env : Env) (job : ExternalDataJob) (db : DB)
    (tc : DataWarehouseTable) (sid : String) (cols2 : List (String × String))
    (hc : env.get_columns tc.name tc.url_pattern = ColumnsResult.ok cols2)
    (hrec : aget_schema_by_id db sid job.team_id = none) :
    refresh_and_update_schema env job db tc sid =
      Except.ok (asave_datawarehousetable db { tc with columns := cols2 }) := by
  unfold refresh_and_update_schema
  rw [hc]
  dsimp only
  rw [aget_asave_table, hrec]

/-- The loop-body tail when the schema record still exists: refresh and save
the table, then attach the table and stamp the sync time on the record. -/
theorem refresh_char_rec (env : Env) (job : ExternalDataJob) (db : DB)
    (tc : DataWarehouseTable) (sid : String) (cols2 : List (String × String))
    (r : ExternalDataSchema)
    (hc : env.get_columns tc.name tc.url_pattern = ColumnsResult.ok cols2)
    (hrec : aget_schema_by_id db sid job.team_id = some r) :
    refresh_and_update_schema env job db tc sid =
      Except.ok (asave_external_data_schema
        (asave_datawarehousetable db { tc with columns := cols2 })
        { r with table := some tc.id, last_synced_at := some job.created_at }) := by
  unfold refresh_and_update_schema
  rw [hc]
  dsimp only
  rw [aget_asave_table, hrec]

/-- The loop body on the create path, schema record still present. -/
theorem process_schema_create_rec (env : Env) (job : ExternalDataJob)
    (last : Option ExternalDataJob) (cred : DataWarehouseCredential)
    (team_id : Nat) (db : DB) (sid nm : String) (c cols2 : List (String × String))
    (r : ExternalDataSchema)
    (hpu : env.get_columns_probe (mk_table_name job nm) (mk_url_pattern job nm) =
      ProbeResult.ok c)
    (hlk : lookup_existing_table env last db sid team_id = none)
    (hrefresh : env.get_columns (mk_table_name job nm) (mk_url_pattern job nm) =
      ColumnsResult.ok cols2)
    (hfresh : ∀ t ∈ db.tables, ¬ t.id = db.next_table_id)
    (hrec : aget_schema_by_id db sid job.team_id = some r) :
    process_schema env job last cred team_id db (sid, nm) = Except.ok
      { db with
          tables := db.tables ++
            [{ id := db.next_table_id, credential := cred,
               name := mk_table_name job nm, format := "Parquet",
               url_pattern := mk_url_pattern job nm, team_id := team_id,
               external_data_source_id := some job.pipeline.id, columns := cols2 }],
          schemas := db.schemas.map (fun x => if x.id == r.id then
            { r with table := some db.next_table_id,
                     last_synced_at := some job.created_at } else x),
          next_table_id := db.next_table_id + 1,
          probe_calls := db.probe_calls ++
            [(mk_table_name job nm, mk_url_pattern job nm)] } := by
  rw [process_schema_probe_ok env job last cred team_id db sid nm c hpu]
  rw [reconcile_table_none env job last team_id _ sid _ _
    (by rw [lookup_probe_calls_irrelevant]; exact hlk)]
  refine Eq.trans (refresh_char_rec env job _ _ sid cols2 r ?_ ?_) ?_
  · exact hrefresh
  · exact hrec
  refine congrArg Except.ok ?_
  simp only [asave_external_data_schema, asave_datawarehousetable,
    acreate_snd_tables, acreate_fst, acreate_snd_schemas, acreate_snd_next,
    acreate_snd_logs, acreate_snd_probe_calls, acreate_snd_credential_fetches,
    acreate_snd_delete_calls, acreate_snd_deleted_jobs]
  rw [List.map_append, map_save_absent db.tables _ db.next_table_id hfresh]
  simp

/-- The loop body on the create path when the schema record is gone by the
metadata step. -/
theorem process_schema_create_norec (env : Env) (job : ExternalDataJob)
    (last : Option ExternalDataJob) (cred : DataWarehouseCredential)
    (team_id : Nat) (db : DB) (sid nm : String) (c cols2 : List (String × String))
    (hpu : env.get_columns_probe (mk_table_name job nm) (mk_url_pattern job nm) =
      ProbeResult.ok c)
    (hlk : lookup_existing_table env last db sid team_id = none)
    (hrefresh : env.get_columns (mk_table_name job nm) (mk_url_pattern job nm) =
      ColumnsResult.ok cols2)
    (hfresh : ∀ t ∈ db.tables, ¬ t.id = db.next_table_id)
    (hrec : aget_schema_by_id db sid job.team_id = none) :
    process_schema env job last cred team_id db (sid, nm) = Except.ok
      { db with
          tables := db.tables ++
            [{ id := db.next_table_id, credential := cred,
               name := mk_table_name job nm, format := "Parquet",
               url_pattern := mk_url_pattern job nm, team_id := team_id,
               external_data_source_id := some job.pipeline.id, columns := cols2 }],
          next_table_id := db.next_table_id + 1,
          probe_calls := db.probe_calls ++
            [(mk_table_name job nm, mk_url_pattern job nm)] } := by
  rw [process_schema_probe_ok env job last cred team_id db sid nm c hpu]
  rw [reconcile_table_none env job last team_id _ sid _ _
    (by rw [lookup_probe_calls_irrelevant]; exact hlk)]
  refine Eq.trans (refresh_char_norec env job _ _ sid cols2 ?_ ?_) ?_
  · exact hrefresh
  · exact hrec
  refine congrArg Except.ok ?_
  simp only [asave_datawarehousetable, acreate_snd_tables, acreate_fst,
    acreate_snd_schemas, acreate_snd_next, acreate_snd_logs,
    acreate_snd_probe_calls, acreate_snd_credential_fetches,
    acreate_snd_delete_calls, acreate_snd_deleted_jobs]
  rw [List.map_append, map_save_absent db.tables _ db.next_table_id hfresh]
  simp

/-- Writing twice under the same primary key keeps only the second write. -/
theorem map_save_twice (l : List DataWarehouseTable) (t1 t2 : DataWarehouseTable)
    (n : Nat) (h1 : t1.id = n) :
    (l.map (fun x => if x.id == n then t1 else x)).map
        (fun x => if x.id == n then t2 else x) =
      l.map (fun x => if x.id == n then t2 else x) := by
  induction l with
  | nil => rfl
  | cons a as ih =>
      rcases ha : (a.id == n) with _ | _
      · simp only [List.map_cons, ha, Bool.false_eq_true, if_false, List.cons.injEq, true_and]
        exact ih
      · simp only [List.map_cons, ha, if_true, List.cons.injEq]
        have : (t1.id == n) = true := by simp [h1]
        simp only [this, if_true, true_and]
        exact ih

/-- The loop body on the update path, schema record still present: only the
URL pattern and (via the refresh) the column list of the found table change;
its row is updated in place. -/
theorem process_schema_update_rec (env : Env) (job : ExternalDataJob)
    (last : Option ExternalDataJob) (cred : DataWarehouseCredential)
    (team_id : Nat) (db : DB) (sid nm : String) (c cols2 : List (String × String))
    (t : DataWarehouseTable) (r : ExternalDataSchema)
    (hpu : env.get_columns_probe (mk_table_name job nm) (mk_url_pattern job nm) =
      ProbeResult.ok c)
    (hlk : lookup_existing_table env last db sid team_id = some t)
    (hrefresh : env.get_columns t.name (mk_url_pattern job nm) = ColumnsResult.ok cols2)
    (hrec : aget_schema_by_id db sid job.team_id = some r) :
    process_schema env job last cred team_id db (sid, nm) = Except.ok
      { db with
          tables := db.tables.map (fun x => if x.id == t.id then
            { t with url_pattern := mk_url_pattern job nm, columns := cols2 } else x),
          schemas := db.schemas.map (fun x => if x.id == r.id then
            { r with table := some t.id,
                     last_synced_at := some job.created_at } else x),
          probe_calls := db.probe_calls ++
            [(mk_table_name job nm, mk_url_pattern job nm)] } := by
  rw [process_schema_probe_ok env job last cred team_id db sid nm c hpu]
  rw [reconcile_table_some env job last team_id _ sid _ _ t
    (by rw [lookup_probe_calls_irrelevant]; exact hlk)]
  refine Eq.trans (refresh_char_rec env job _ _ sid cols2 r ?_ ?_) ?_
  · exact hrefresh
  · exact hrec
  refine congrArg Except.ok ?_
  simp only [asave_external_data_schema, asave_datawarehousetable,
    asave_table_tables, asave_table_schemas]
  rw [map_save_twice db.tables _ _ t.id (by simp)]

/-- The loop body on the update path when the schema record is gone by the
metadata step. -/
theorem process_schema_update_norec (env : Env) (job : ExternalDataJob)
    (last : Option ExternalDataJob) (cred : DataWarehouseCredential)
    (team_id : Nat) (db : DB) (sid nm : String) (c cols2 : List (String × String))
    (t : DataWarehouseTable)
    (hpu : env.get_columns_probe (mk_table_name job nm) (mk_url_pattern job nm) =
      ProbeResult.ok c)
    (hlk : lookup_existing_table env last db sid team_id = some t)
    (hrefresh : env.get_columns t.name (mk_url_pattern job nm) = ColumnsResult.ok cols2)
    (hrec : aget_schema_by_id db sid job.team_id = none) :
    process_schema env job last cred team_id db (sid, nm) = Except.ok
      { db with
          tables := db.tables.map (fun x => if x.id == t.id then
            { t with url_pattern := mk_url_pattern job nm, columns := cols2 } else x),
          probe_calls := db.probe_calls ++
            [(mk_table_name job nm, mk_url_pattern job nm)] } := by
  rw [process_schema_probe_ok env job last cred team_id db sid nm c hpu]
  rw [reconcile_table_some env job last team_id _ sid _ _ t
    (by rw [lookup_probe_calls_irrelevant]; exact hlk)]
  refine Eq.trans (refresh_char_norec env job _ _ sid cols2 ?_ ?_) ?_
  · exact hrefresh
  · exact hrec
  refine congrArg Except.ok ?_
  simp only [asave_datawarehousetable, asave_table_tables]
  rw [map_save_twice db.tables _ _ t.id (by simp)]

/-! ### C4: create exactly when no table was found -/

/-- The lookup yields nothing exactly when there is no previous successful
run, or the lookup raises, or the catalog has no table for the schema id. -/
theorem lookup_existing_none_iff (env : Env) (last : Option ExternalDataJob)
    (db : DB) (sid : String) (team : Nat) :
    lookup_existing_table env last db sid team = none ↔
      (last = none ∨ env.lookup_raises sid = true ∨
        get_table_by_schema_id db sid team = none) := by
  unfold lookup_existing_table
  rcases last with _ | lj
  · simp
  · rcases hr : env.lookup_raises sid with _ | _ <;> simp [hr]

/-- C4: for a successfully probed schema (with the refresh also succeeding
and the id counter fresh), a new table row linked to the pipeline's external
source identifier is appended exactly when there is no previous successful
run, or the lookup raised, or the lookup found nothing; a lookup failure is
never an error of the call. -/
theorem c4_create_iff (env : Env) (job : ExternalDataJob)
    (last : Option ExternalDataJob) (cred : DataWarehouseCredential)
    (team_id : Nat) (db : DB) (sid nm : String) (c : List (String × String))
    (hpu : env.get_columns_probe (mk_table_name job nm) (mk_url_pattern job nm) =
      ProbeResult.ok c)
    (hrefresh : ∀ n u, ∃ cc, env.get_columns n u = ColumnsResult.ok cc)
    (hfresh : ∀ t ∈ db.tables, ¬ t.id = db.next_table_id) :
    ∃ db', process_schema env job last cred team_id db (sid, nm) = Except.ok db' ∧
      ((last = none ∨ env.lookup_raises sid = true ∨
          get_table_by_schema_id db sid team_id = none) ↔
        ∃ tnew, db'.tables = db.tables ++ [tnew] ∧
          tnew.external_data_source_id = some job.pipeline.id ∧
          tnew.id = db.next_table_id) := by
  rcases hlk : lookup_existing_table env last db sid team_id with _ | t
  · obtain ⟨cols2, hc⟩ := hrefresh (mk_table_name job nm) (mk_url_pattern job nm)
    rcases hag : aget_schema_by_id db sid job.team_id with _ | r
    · refine ⟨_, process_schema_create_norec env job last cred team_id db sid nm
        c cols2 hpu hlk hc hfresh hag, ?_⟩
      exact iff_of_true ((lookup_existing_none_iff env last db sid team_id).mp hlk)
        ⟨_, rfl, rfl, rfl⟩
    · refine ⟨_, process_schema_create_rec env job last cred team_id db sid nm
        c cols2 r hpu hlk hc hfresh hag, ?_⟩
      exact iff_of_true ((lookup_existing_none_iff env last db sid team_id).mp hlk)
        ⟨_, rfl, rfl, rfl⟩
  · obtain ⟨cols2, hc⟩ := hrefresh t.name (mk_url_pattern job nm)
    have hne : ¬ (last = none ∨ env.lookup_raises sid = true ∨
        get_table_by_schema_id db sid team_id = none) := by
      intro h
      have := (lookup_existing_none_iff env last db sid team_id).mpr h
      rw [hlk] at this
      cases this
    rcases hag : aget_schema_by_id db sid job.team_id with _ | r
    · refine ⟨_, process_schema_update_norec env job last cred team_id db sid nm
        c cols2 t hpu hlk hc hag, ?_⟩
      refine iff_of_false hne ?_
      rintro ⟨tnew, htab, -, -⟩
      have := congrArg List.length htab
      simp at this
    · refine ⟨_, process_schema_update_rec env job last cred team_id db sid nm
        c cols2 t r hpu hlk hc hag, ?_⟩
      refine iff_of_false hne ?_
      rintro ⟨tnew, htab, -, -⟩
      have := congrArg List.length htab
      simp at this

/-- Witness for C4 at the concrete fixture (create path: no previous run). -/
theorem c4_create_iff_witness :
    ∃ db', process_schema envA jobA none credA 7 dbA ("s1", "Users") = Except.ok db' ∧
      (((none : Option ExternalDataJob) = none ∨ envA.lookup_raises "s1" = true ∨
          get_table_by_schema_id dbA "s1" 7 = none) ↔
        ∃ tnew, db'.tables = dbA.tables ++ [tnew] ∧
          tnew.external_data_source_id = some jobA.pipeline.id ∧
          tnew.id = dbA.next_table_id) :=
  c4_create_iff envA jobA none credA 7 dbA "s1" "Users" [("a", "String")] rfl
    (fun _ _ => ⟨[("b", "Int")], rfl⟩) (fun t ht => by simp [dbA] at ht)

/-! ### C5: update in place -/

/-- C5: when a previous successful run exists, the lookup does not raise and
a table linked to the schema id is found, that table is updated in place: no
row is added or removed, the found row keeps its name, format, owning team,
credential and source link, its URL pattern becomes the newly computed one,
and the column-list refresh fills its columns before final persistence. -/
theorem c5_update_in_place (env : Env) (job : ExternalDataJob)
    (lj : ExternalDataJob) (cred : DataWarehouseCredential)
    (team_id : Nat) (db : DB) (sid nm : String) (c cols2 : List (String × String))
    (t : DataWarehouseTable) (r : ExternalDataSchema)
    (hpu : env.get_columns_probe (mk_table_name job nm) (mk_url_pattern job nm) =
      ProbeResult.ok c)
    (hraise : env.lookup_raises sid = false)
    (hfound : get_table_by_schema_id db sid team_id = some t)
    (hrefresh : env.get_columns t.name (mk_url_pattern job nm) = ColumnsResult.ok cols2)
    (hrec : aget_schema_by_id db sid job.team_id = some r) :
    ∃ t', process_schema env job (some lj) cred team_id db (sid, nm) = Except.ok
        { db with
            tables := db.tables.map (fun x => if x.id == t.id then t' else x),
            schemas := db.schemas.map (fun x => if x.id == r.id then
              { r with table := some t.id,
                       last_synced_at := some job.created_at } else x),
            probe_calls := db.probe_calls ++
              [(mk_table_name job nm, mk_url_pattern job nm)] } ∧
      t'.id = t.id ∧
      t'.name = t.name ∧
      t'.format = t.format ∧
      t'.team_id = t.team_id ∧
      t'.credential = t.credential ∧
      t'.external_data_source_id = t.external_data_source_id ∧
      t'.url_pattern = mk_url_pattern job nm ∧
      t'.columns = cols2 := by
  have hlk : lookup_existing_table env (some lj) db sid team_id = some t := by
    unfold lookup_existing_table
    rw [hraise]
    simpa using hfound
  exact ⟨_, process_schema_update_rec env job (some lj) cred team_id db sid nm
    c cols2 t r hpu hlk hrefresh hrec, rfl, rfl, rfl, rfl, rfl, rfl, rfl, rfl⟩

/-- Witness for C5 at the concrete fixture: the second-run environment finds
table 5 linked from schema "s1" and updates it in place. -/
theorem c5_update_in_place_witness :
    ∃ t', process_schema envA jobA (some jobA) credA 7 dbB ("s1", "Users") = Except.ok
        { dbB with
            tables := dbB.tables.map (fun x => if x.id == tableB.id then t' else x),
            schemas := dbB.schemas.map (fun x => if x.id == "s1" then
              { id := "s1", team_id := 7, table := some 5,
                  last_synced_at := some jobA.created_at } else x),
            probe_calls := dbB.probe_calls ++
              [(mk_table_name jobA "Users", mk_url_pattern jobA "Users")] } ∧
      t'.id = tableB.id ∧
      t'.name = tableB.name ∧
      t'.format = tableB.format ∧
      t'.team_id = tableB.team_id ∧
      t'.credential = tableB.credential ∧
      t'.external_data_source_id = tableB.external_data_source_id ∧
      t'.url_pattern = mk_url_pattern jobA "Users" ∧
      t'.columns = [("b", "Int")] :=
  c5_update_in_place envA jobA jobA credA 7 dbB "s1" "Users" [("a", "String")]
    [("b", "Int")] tableB
    { id := "s1", team_id := 7, table := some 5, last_synced_at := none }
    rfl rfl rfl rfl rfl

/-! ### C6: schema metadata update -/

/-- A table found by the catalog lookup is a member of the table list. -/
theorem get_table_mem (db : DB) (sid : String) (team : Nat)
    (t : DataWarehouseTable)
    (h : get_table_by_schema_id db sid team = some t) : t ∈ db.tables := by
  unfold get_table_by_schema_id at h
  rcases hf : db.schemas.find? (fun s => s.id == sid && s.team_id == team) with _ | r
  · rw [hf] at h; cases h
  · rw [hf] at h
    dsimp only at h
    rcases hr : r.table with _ | tid
    · rw [hr] at h; cases h
    · rw [hr] at h
      dsimp only at h
      exact List.mem_of_find?_eq_some h

/-- A table produced by the lookup step is a member of the table list. -/
theorem lookup_existing_mem (env : Env) (last : Option ExternalDataJob)
    (db : DB) (sid : String) (team : Nat) (t : DataWarehouseTable)
    (h : lookup_existing_table env last db sid team = some t) : t ∈ db.tables := by
  unfold lookup_existing_table at h
  rcases last with _ | lj
  · cases h
  · rcases hr : env.lookup_raises sid with _ | _
    · rw [hr] at h
      simp only [Bool.false_eq_true, if_false] at h
      exact get_table_mem db sid team t h
    · rw [hr] at h
      simp at h

/-- The appended row is a member of the extended list with its id. -/
theorem exists_mem_append_id (l : List DataWarehouseTable)
    (t : DataWarehouseTable) (n : Nat) (h : t.id = n) :
    ∃ x ∈ l ++ [t], x.id = n :=
  ⟨t, by simp, h⟩

/-- The row written by a keyed save is a member of the saved list. -/
theorem exists_mem_map_save_id (l : List DataWarehouseTable)
    (t t2 : DataWarehouseTable) (hmem : t ∈ l) (hid : t2.id = t.id) :
    ∃ x ∈ l.map (fun y => if y.id == t.id then t2 else y), x.id = t.id := by
  refine ⟨t2, ?_, hid⟩
  have h2 := List.mem_map_of_mem (fun y => if y.id == t.id then t2 else y) hmem
  simpa using h2

/-- C6: for every successfully probed and reconciled schema the schema record
is re-fetched; when it still exists the reconciled table's id is attached to
it and its last-synced-at is stamped with the job's creation time and the
record is persisted; when it no longer exists nothing is done to the schema
records — no error, no recreation. -/
theorem c6_metadata_update (env : Env) (job : ExternalDataJob)
    (last : Option ExternalDataJob) (cred : DataWarehouseCredential)
    (team_id : Nat) (db : DB) (sid nm : String) (c : List (String × String))
    (hpu : env.get_columns_probe (mk_table_name job nm) (mk_url_pattern job nm) =
      ProbeResult.ok c)
    (hrefresh : ∀ n u, ∃ cc, env.get_columns n u = ColumnsResult.ok cc)
    (hfresh : ∀ t ∈ db.tables, ¬ t.id = db.next_table_id) :
    (∀ r, aget_schema_by_id db sid job.team_id = some r →
      ∃ db' tid, process_schema env job last cred team_id db (sid, nm) = Except.ok db' ∧
        db'.schemas = db.schemas.map (fun x => if x.id == r.id then
          { r with table := some tid, last_synced_at := some job.created_at } else x) ∧
        (∃ t' ∈ db'.tables, t'.id = tid)) ∧
    (aget_schema_by_id db sid job.team_id = none →
      ∃ db', process_schema env job last cred team_id db (sid, nm) = Except.ok db' ∧
        db'.schemas = db.schemas) := by
  constructor
  · intro r hag
    rcases hlk : lookup_existing_table env last db sid team_id with _ | t
    · obtain ⟨cols2, hc⟩ := hrefresh (mk_table_name job nm) (mk_url_pattern job nm)
      refine ⟨_, db.next_table_id, process_schema_create_rec env job last cred team_id
        db sid nm c cols2 r hpu hlk hc hfresh hag, rfl, ?_⟩
      exact exists_mem_append_id db.tables _ db.next_table_id (by simp)
    · obtain ⟨cols2, hc⟩ := hrefresh t.name (mk_url_pattern job nm)
      refine ⟨_, t.id, process_schema_update_rec env job last cred team_id
        db sid nm c cols2 t r hpu hlk hc hag, rfl, ?_⟩
      exact exists_mem_map_save_id db.tables t _
        (lookup_existing_mem env last db sid team_id t hlk) (by simp)
  · intro hag
    rcases hlk : lookup_existing_table env last db sid team_id with _ | t
    · obtain ⟨cols2, hc⟩ := hrefresh (mk_table_name job nm) (mk_url_pattern job nm)
      exact ⟨_, process_schema_create_norec env job last cred team_id
        db sid nm c cols2 hpu hlk hc hfresh hag, rfl⟩
    · obtain ⟨cols2, hc⟩ := hrefresh t.name (mk_url_pattern job nm)
      exact ⟨_, process_schema_update_norec env job last cred team_id
        db sid nm c cols2 t hpu hlk hc hag, rfl⟩

/-- Witness for C6: at the fixtures, both the record-still-there case (`dbA`)
and the record-deleted case (`dbC`). -/
theorem c6_metadata_update_witness :
    ((∀ r, aget_schema_by_id dbA "s1" jobA.team_id = some r →
      ∃ db' tid, process_schema envA jobA none credA 7 dbA ("s1", "Users") = Except.ok db' ∧
        db'.schemas = dbA.schemas.map (fun x => if x.id == r.id then
          { r with table := some tid, last_synced_at := some jobA.created_at } else x) ∧
        (∃ t' ∈ db'.tables, t'.id = tid)) ∧
    (aget_schema_by_id dbA "s1" jobA.team_id = none →
      ∃ db', process_schema envA jobA none credA 7 dbA ("s1", "Users") = Except.ok db' ∧
        db'.schemas = dbA.schemas)) ∧
    ((∀ r, aget_schema_by_id dbC "s1" jobA.team_id = some r →
      ∃ db' tid, process_schema envA jobA none credA 7 dbC ("s1", "Users") = Except.ok db' ∧
        db'.schemas = dbC.schemas.map (fun x => if x.id == r.id then
          { r with table := some tid, last_synced_at := some jobA.created_at } else x) ∧
        (∃ t' ∈ db'.tables, t'.id = tid)) ∧
    (aget_schema_by_id dbC "s1" jobA.team_id = none →
      ∃ db', process_schema envA jobA none credA 7 dbC ("s1", "Users") = Except.ok db' ∧
        db'.schemas = dbC.schemas)) :=
  ⟨c6_metadata_update envA jobA none credA 7 dbA "s1" "Users" [("a", "String")]
      rfl (fun _ _ => ⟨[("b", "Int")], rfl⟩) (fun t ht => by simp [dbA] at ht),
   c6_metadata_update envA jobA none credA 7 dbC "s1" "Users" [("a", "String")]
      rfl (fun _ _ => ⟨[("b", "Int")], rfl⟩) (fun t ht => by simp [dbC] at ht; subst ht; decide)⟩

/-! ### C7: reap after success -/

/-- The loop body never touches the deletion counter. -/
theorem process_schema_outcome_delete_calls (env : Env) (job : ExternalDataJob)
    (last : Option ExternalDataJob) (cred : DataWarehouseCredential)
    (team_id : Nat) (db : DB) (s : String × String) :
    (outcome_db (process_schema env job last cred team_id db s)).delete_calls =
      db.delete_calls := by
  obtain ⟨sid, nm⟩ := s
  simp only [process_schema, validate_schema]
  rcases hpu : env.get_columns_probe (mk_table_name job nm) (mk_url_pattern job nm) with
    c | code | _ <;> simp only [hpu]
  · simp
  · split <;> simp [outcome_db]
  · simp [outcome_db]

/-- The loop body never touches the list of deleted buckets. -/
theorem process_schema_outcome_deleted_jobs (env : Env) (job : ExternalDataJob)
    (last : Option ExternalDataJob) (cred : DataWarehouseCredential)
    (team_id : Nat) (db : DB) (s : String × String) :
    (outcome_db (process_schema env job last cred team_id db s)).deleted_jobs =
      db.deleted_jobs := by
  obtain ⟨sid, nm⟩ := s
  simp only [process_schema, validate_schema]
  rcases hpu : env.get_columns_probe (mk_table_name job nm) (mk_url_pattern job nm) with
    c | code | _ <;> simp only [hpu]
  · simp
  · split <;> simp [outcome_db]
  · simp [outcome_db]

/-- The whole loop never touches the deletion counter or the deleted-bucket
list. -/
theorem process_schemas_delete_frame (env : Env) (job : ExternalDataJob)
    (last : Option ExternalDataJob) (cred : DataWarehouseCredential)
    (team_id : Nat) :
    ∀ (l : List (String × String)) (db db' : DB),
      process_schemas env job last cred team_id l db = Except.ok db' →
      db'.delete_calls = db.delete_calls ∧ db'.deleted_jobs = db.deleted_jobs := by
  intro l
  induction l with
  | nil =>
      intro db db' h
      cases h
      exact ⟨rfl, rfl⟩
  | cons s rest ih =>
      intro db db' h
      simp only [process_schemas] at h
      rcases hs : process_schema env job last cred team_id db s with e | d1
      · rw [hs] at h; cases h
      · rw [hs] at h
        have hd1c : d1.delete_calls = db.delete_calls := by
          have := process_schema_outcome_delete_calls env job last cred team_id db s
          rw [hs] at this
          exact this
        have hd1j : d1.deleted_jobs = db.deleted_jobs := by
          have := process_schema_outcome_deleted_jobs env job last cred team_id db s
          rw [hs] at this
          exact this
        obtain ⟨h2, h3⟩ := ih d1 db' h
        exact ⟨h2.trans hd1c, h3.trans hd1j⟩

/-- C7: exactly when a previous successful run exists, the deletion routine is
invoked exactly once, after the whole loop; the loop itself performs no
deletion; a deletion failure is logged and swallowed and the call still
returns normally. -/
theorem c7_reap (env : Env) (db : DB) (run_id : String) (team_id : Nat)
    (schemas : List (String × String)) (job : ExternalDataJob)
    (hjob : env.jobs run_id = some job)
    (hcols : ∀ n u, ∃ cc, env.get_columns n u = ColumnsResult.ok cc) :
    ∃ db', validate_schema_and_update_table env db run_id team_id schemas =
        Except.ok db' ∧
      db'.delete_calls = db.delete_calls +
        (if (env.latest_run job.team_id job.pipeline_id).isSome then 1 else 0) ∧
      (∀ lj, env.latest_run job.team_id job.pipeline_id = some lj →
        (env.delete_raises = false → db'.deleted_jobs = db.deleted_jobs ++ [lj.pk]) ∧
        (env.delete_raises = true → db'.deleted_jobs = db.deleted_jobs ∧
          ∃ pre, db'.logs = pre ++
            ["Data Warehouse: Could not delete deprecated data source "
              ++ toString lj.pk])) := by
  unfold validate_schema_and_update_table
  rw [hjob]
  dsimp only
  obtain ⟨d1, h1⟩ := process_schemas_no_raise env job
    (env.latest_run job.team_id job.pipeline_id) (env.credential_for job.team_id)
    team_id hcols schemas { db with credential_fetches := db.credential_fetches + 1 }
  rw [h1]
  obtain ⟨hdc, hdj⟩ := process_schemas_delete_frame env job
    (env.latest_run job.team_id job.pipeline_id) (env.credential_for job.team_id)
    team_id schemas _ d1 h1
  rcases hl : env.latest_run job.team_id job.pipeline_id with _ | lj
  · dsimp only
    exact ⟨d1, rfl, by simp [hdc], by simp⟩
  · dsimp only
    rcases hd : env.delete_raises with _ | _
    · rw [if_neg (by decide : ¬ (false = true))]
      refine ⟨_, rfl, by simp [hdc], ?_⟩
      rintro lj' hlj'
      injection hlj' with he
      subst he
      refine ⟨fun _ => by simp [hdj], fun h => absurd h (by simp [hd])⟩
    · rw [if_pos (rfl : (true : Bool) = true)]
      refine ⟨_, rfl, by simp [hdc], ?_⟩
      rintro lj' hlj'
      injection hlj' with he
      subst he
      refine ⟨fun h => absurd h (by simp [hd]), fun _ => ⟨by simp [hdj], d1.logs, by simp⟩⟩

/-- Witness for C7 at the concrete fixture with a previous successful run. -/
theorem c7_reap_witness :
    ∃ db', validate_schema_and_update_table envPrev dbA "run1" 7 [("s1", "Users")] =
        Except.ok db' ∧
      db'.delete_calls = dbA.delete_calls +
        (if (envPrev.latest_run jobA.team_id jobA.pipeline_id).isSome then 1 else 0) ∧
      (∀ lj, envPrev.latest_run jobA.team_id jobA.pipeline_id = some lj →
        (envPrev.delete_raises = false → db'.deleted_jobs = dbA.deleted_jobs ++ [lj.pk]) ∧
        (envPrev.delete_raises = true → db'.deleted_jobs = dbA.deleted_jobs ∧
          ∃ pre, db'.logs = pre ++
            ["Data Warehouse: Could not delete deprecated data source "
              ++ toString lj.pk])) :=
  c7_reap envPrev dbA "run1" 7 [("s1", "Users")] jobA rfl
    (fun _ _ => ⟨[("b", "Int")], rfl⟩)

/-! ### C3: idempotent reconciliation. Support lemmas -/

/-- With distinct record ids, the store lookup finds exactly the member
record carrying the requested id and team. -/
theorem find_schema_nodup (l : List ExternalDataSchema) (r : ExternalDataSchema)
    (sid : String) (team : Nat)
    (hnd : (l.map (fun x => x.id)).Nodup) (hr : r ∈ l) (hid : r.id = sid)
    (hteam : r.team_id = team) :
    l.find? (fun s => s.id == sid && s.team_id == team) = some r := by
  induction l with
  | nil => cases hr
  | cons a as ih =>
      rcases List.mem_cons.mp hr with he | hmem
      · subst he
        have : (r.id == sid && r.team_id == team) = true := by simp [hid, hteam]
        exact List.find?_cons_of_pos as this
      · have hane : ¬ a.id = sid := by
          intro hcontra
          have : a.id ∈ as.map (fun x => x.id) :=
            hcontra ▸ hid ▸ List.mem_map_of_mem (fun x => x.id) hmem
          exact (List.nodup_cons.mp hnd).1 this
        have hpa : (a.id == sid && a.team_id == team) = false := by
          simp [hane]
        rw [List.find?_cons_of_neg as (by simp [hpa])]
        exact ih (List.nodup_cons.mp hnd).2 hmem

/-- With distinct table ids, the row lookup by id finds exactly the member
row carrying that id. -/
theorem find_table_nodup (l : List DataWarehouseTable) (t : DataWarehouseTable)
    (hnd : (l.map (fun x => x.id)).Nodup) (ht : t ∈ l) :
    l.find? (fun x => x.id == t.id) = some t := by
  induction l with
  | nil => cases ht
  | cons a as ih =>
      rcases List.mem_cons.mp ht with he | hmem
      · subst he
        exact List.find?_cons_of_pos as (by simp)
      · have hane : ¬ a.id = t.id := by
          intro hcontra
          have : a.id ∈ as.map (fun x => x.id) :=
            hcontra ▸ List.mem_map_of_mem (fun x => x.id) hmem
          exact (List.nodup_cons.mp hnd).1 this
        rw [List.find?_cons_of_neg as (by simp [hane])]
        exact ih (List.nodup_cons.mp hnd).2 hmem

/-- A keyed record save preserves the list of (id, team) pairs, provided the
written record keeps the key and every record carrying the key has the
written team. -/
theorem map_pairs_save (l : List ExternalDataSchema) (r' : ExternalDataSchema)
    (n : String) (hid : r'.id = n)
    (h : ∀ x ∈ l, x.id = n → x.team_id = r'.team_id) :
    (l.map (fun x => if x.id == n then r' else x)).map (fun x => (x.id, x.team_id)) =
      l.map (fun x => (x.id, x.team_id)) := by
  induction l with
  | nil => rfl
  | cons a as ih =>
      rcases ha : (a.id == n) with _ | _
      · simp only [List.map_cons, ha, Bool.false_eq_true, if_false, List.cons.injEq,
          true_and]
        exact ih (fun x hx => h x (List.mem_cons_of_mem a hx))
      · have han : a.id = n := by simpa using ha
        simp only [List.map_cons, ha, if_true, List.cons.injEq]
        refine ⟨?_, ih (fun x hx => h x (List.mem_cons_of_mem a hx))⟩
        have := h a (List.mem_cons_self a as) han
        rw [hid, han, this]

/-- Appending a fresh element keeps a Nat list duplicate-free. -/
theorem nodup_append_fresh (l : List Nat) (n : Nat) (hnd : l.Nodup)
    (h : ∀ x ∈ l, ¬ x = n) : (l ++ [n]).Nodup := by
  induction l with
  | nil => simp
  | cons a as ih =>
      rcases List.nodup_cons.mp hnd with ⟨hna, hnd'⟩
      refine List.nodup_cons.mpr ⟨?_, ih hnd' (fun x hx => h x (List.mem_cons_of_mem a hx))⟩
      intro hmem
      rcases List.mem_append.mp hmem with hin | he
      · exact hna hin
      · exact h a (List.mem_cons_self a as) (List.mem_singleton.mp he)

/-- A keyed record save preserves the list of record ids when the written
record keeps the key. -/
theorem map_ids_save (l : List ExternalDataSchema) (r' : ExternalDataSchema)
    (n : String) (hid : r'.id = n) :
    (l.map (fun x => if x.id == n then r' else x)).map (fun x => x.id) =
      l.map (fun x => x.id) := by
  induction l with
  | nil => rfl
  | cons a as ih =>
      rcases ha : (a.id == n) with _ | _
      · simp only [List.map_cons, ha, Bool.false_eq_true, if_false, List.cons.injEq,
          true_and]
        exact ih
      · have han : a.id = n := by simpa using ha
        simp only [List.map_cons, ha, if_true, List.cons.injEq]
        exact ⟨by rw [hid, han], ih⟩

/-- A first run with no previous successful job: every schema creates exactly
one fresh table and links its record to it; existing rows and records are
preserved, ids stay distinct and fresh. -/
theorem run1_loop (env : Env) (job : ExternalDataJob)
    (cred : DataWarehouseCredential)
    (pc : String → String → List (String × String))
    (hpr : ∀ n u, ∃ c, env.get_columns_probe n u = ProbeResult.ok c)
    (hcol : ∀ n u, env.get_columns n u = ColumnsResult.ok (pc n u)) :
    ∀ (l : List (String × String)) (db : DB),
      (l.map Prod.fst).Nodup →
      (∀ s ∈ l, ∃ r ∈ db.schemas, r.id = s.1 ∧ r.team_id = job.team_id) →
      (db.schemas.map (fun x => x.id)).Nodup →
      (∀ t ∈ db.tables, t.id < db.next_table_id) →
      (db.tables.map (fun t => t.id)).Nodup →
      ∃ db', process_schemas env job none cred job.team_id l db = Except.ok db' ∧
        db'.tables.length = db.tables.length + l.length ∧
        db'.next_table_id = db.next_table_id + l.length ∧
        (∀ t ∈ db'.tables, t.id < db'.next_table_id) ∧
        (db'.tables.map (fun t => t.id)).Nodup ∧
        db'.schemas.map (fun x => (x.id, x.team_id)) =
          db.schemas.map (fun x => (x.id, x.team_id)) ∧
        (∀ t ∈ db.tables, t ∈ db'.tables) ∧
        (∀ rec ∈ db.schemas, rec.id ∉ l.map Prod.fst → rec ∈ db'.schemas) ∧
        (∀ s ∈ l, linked_ok pc job db' s) := by
  intro l
  induction l with
  | nil =>
      intro db hndl hrecs hnds hfresh hndt
      exact ⟨db, rfl, by simp, by simp, hfresh, hndt, rfl, fun t ht => ht,
        fun rec hrec _ => hrec, fun s hs => absurd hs (List.not_mem_nil s)⟩
  | cons s rest ih =>
      obtain ⟨sid, nm⟩ := s
      intro db hndl hrecs hnds hfresh hndt
      obtain ⟨r, hrmem, hrid0, hrteam⟩ := hrecs (sid, nm) (List.mem_cons_self _ _)
      have hrid : r.id = sid := hrid0
      obtain ⟨c, hpu⟩ := hpr (mk_table_name job nm) (mk_url_pattern job nm)
      have hsid_not : sid ∉ rest.map Prod.fst := (List.nodup_cons.mp hndl).1
      have hndtail : (rest.map Prod.fst).Nodup := (List.nodup_cons.mp hndl).2
      have hag : aget_schema_by_id db sid job.team_id = some r :=
        find_schema_nodup db.schemas r sid job.team_id hnds hrmem hrid hrteam
      have hfresh' : ∀ t ∈ db.tables, ¬ t.id = db.next_table_id :=
        fun t ht => Nat.ne_of_lt (hfresh t ht)
      have hstep := process_schema_create_rec env job none cred job.team_id db sid nm
        c (pc (mk_table_name job nm) (mk_url_pattern job nm)) r hpu rfl
        (hcol (mk_table_name job nm) (mk_url_pattern job nm)) hfresh' hag
      have hrid_eq : ∀ x ∈ db.schemas, x.id = r.id → x = r := by
        intro x hx he
        exact List.inj_on_of_nodup_map hnds hx hrmem he
      obtain ⟨db', hloop, hlen, hnext, hfresh2, hndt2, hpairs, htpres, hrpres, hlinked⟩ :=
        ih { db with
            tables := db.tables ++
              [{ id := db.next_table_id, credential := cred,
                 name := mk_table_name job nm, format := "Parquet",
                 url_pattern := mk_url_pattern job nm, team_id := job.team_id,
                 external_data_source_id := some job.pipeline.id,
                 columns := pc (mk_table_name job nm) (mk_url_pattern job nm) }],
            schemas := db.schemas.map (fun x => if x.id == r.id then
              { r with table := some db.next_table_id,
                       last_synced_at := some job.created_at } else x),
            next_table_id := db.next_table_id + 1,
            probe_calls := db.probe_calls ++
              [(mk_table_name job nm, mk_url_pattern job nm)] }
          hndtail
          (by
            intro s hs
            obtain ⟨rr, hrrmem, hrrid, hrrteam⟩ := hrecs s (List.mem_cons_of_mem _ hs)
            have hne : ¬ rr.id = r.id := by
              intro hcontra
              apply hsid_not
              have hss : Prod.fst s = sid := by rw [← hrrid, hcontra, hrid]
              exact hss ▸ List.mem_map_of_mem Prod.fst hs
            refine ⟨rr, ?_, hrrid, hrrteam⟩
            have hmm := List.mem_map_of_mem
              (fun x => if x.id == r.id then
                { r with table := some db.next_table_id,
                         last_synced_at := some job.created_at } else x) hrrmem
            simpa [hne] using hmm)
          (by
            dsimp only
            rw [map_ids_save db.schemas _ r.id (by simp)]
            exact hnds)
          (by
            intro t ht
            rcases List.mem_append.mp ht with h | h
            · exact Nat.lt_succ_of_lt (hfresh t h)
            · rw [List.mem_singleton.mp h]
              exact Nat.lt_succ_self _)
          (by
            dsimp only
            rw [List.map_append]
            exact nodup_append_fresh _ _ hndt
              (by
                intro x hx
                obtain ⟨t, ht, he⟩ := List.mem_map.mp hx
                rw [← he]
                exact Nat.ne_of_lt (hfresh t ht)))
      refine ⟨db', ?_, ?_, ?_, hfresh2, hndt2, ?_, ?_, ?_, ?_⟩
      · simp only [process_schemas, hstep]
        exact hloop
      · dsimp only at hlen
        simp only [List.length_append, List.length_singleton] at hlen
        simp only [List.length_cons]
        omega
      · dsimp only at hnext
        simp only [List.length_cons]
        omega
      · rw [hpairs]
        dsimp only
        exact map_pairs_save db.schemas _ r.id (by simp)
          (fun x hx he => by rw [hrid_eq x hx he])
      · intro t ht
        exact htpres t (List.mem_append_left _ ht)
      · intro rec hrec hnotin
        have h1 : ¬ rec.id = sid := fun he => hnotin (by simp [he])
        have h2 : rec.id ∉ rest.map Prod.fst := fun hin => hnotin (by simp [hin])
        refine hrpres rec ?_ h2
        have hmm := List.mem_map_of_mem
          (fun x => if x.id == r.id then
            { r with table := some db.next_table_id,
                     last_synced_at := some job.created_at } else x) hrec
        have hne : ¬ rec.id = r.id := by rw [hrid]; exact h1
        simpa [hne] using hmm
      · intro s hs
        rcases List.mem_cons.mp hs with he | hmem
        · subst he
          refine ⟨{ r with table := some db.next_table_id, last_synced_at := some job.created_at }, ?_, hrid, hrteam, ?_⟩
          · refine hrpres _ ?_ ?_
            · have hmm := List.mem_map_of_mem
                (fun x => if x.id == r.id then
                  { r with table := some db.next_table_id,
                           last_synced_at := some job.created_at } else x) hrmem
              simpa using hmm
            · dsimp only
              rw [hrid]
              exact hsid_not
          · refine ⟨{ id := db.next_table_id, credential := cred,
                        name := mk_table_name job nm, format := "Parquet",
                        url_pattern := mk_url_pattern job nm, team_id := job.team_id,
                        external_data_source_id := some job.pipeline.id,
                        columns := pc (mk_table_name job nm) (mk_url_pattern job nm) },
              ?_, rfl, rfl, rfl, rfl⟩
            exact htpres _ (List.mem_append_right _ (List.mem_singleton_self _))
        · exact hlinked s hmem

/-- A second run over schemas already linked by a previous successful run:
every schema takes the update path, rewrites its table with identical values
and leaves the catalog tables untouched. -/
theorem run2_loop (env : Env) (job : ExternalDataJob) (lj : ExternalDataJob)
    (cred : DataWarehouseCredential)
    (pc : String → String → List (String × String))
    (hpr : ∀ n u, ∃ c, env.get_columns_probe n u = ProbeResult.ok c)
    (hcol : ∀ n u, env.get_columns n u = ColumnsResult.ok (pc n u))
    (hraise : ∀ s, env.lookup_raises s = false) :
    ∀ (l : List (String × String)) (db : DB),
      (l.map Prod.fst).Nodup →
      (db.schemas.map (fun x => x.id)).Nodup →
      (db.tables.map (fun t => t.id)).Nodup →
      (∀ s ∈ l, linked_ok pc job db s) →
      ∃ db', process_schemas env job (some lj) cred job.team_id l db = Except.ok db' ∧
        db'.tables = db.tables := by
  intro l
  induction l with
  | nil =>
      intro db _ _ _ _
      exact ⟨db, rfl, rfl⟩
  | cons s rest ih =>
      obtain ⟨sid, nm⟩ := s
      intro db hndl hnds hndt hlinked
      obtain ⟨r, hrmem, hrid0, hrteam, t, htmem, hrtable, htname, hturl, htcols⟩ :=
        hlinked (sid, nm) (List.mem_cons_self _ _)
      have hrid : r.id = sid := hrid0
      have hsid_not : sid ∉ rest.map Prod.fst := (List.nodup_cons.mp hndl).1
      have hndtail : (rest.map Prod.fst).Nodup := (List.nodup_cons.mp hndl).2
      obtain ⟨c, hpu⟩ := hpr (mk_table_name job nm) (mk_url_pattern job nm)
      have hfind : db.schemas.find?
          (fun x => x.id == sid && x.team_id == job.team_id) = some r :=
        find_schema_nodup db.schemas r sid job.team_id hnds hrmem hrid hrteam
      have hgt : get_table_by_schema_id db sid job.team_id = some t := by
        unfold get_table_by_schema_id
        rw [hfind]
        dsimp only
        rw [hrtable]
        dsimp only
        exact find_table_nodup db.tables t hndt htmem
      have hlk : lookup_existing_table env (some lj) db sid job.team_id = some t := by
        unfold lookup_existing_table
        rw [hraise sid]
        simpa using hgt
      have hag : aget_schema_by_id db sid job.team_id = some r := hfind
      have hstep := process_schema_update_rec env job (some lj) cred job.team_id db
        sid nm c (pc t.name (mk_url_pattern job nm)) t r hpu hlk
        (hcol t.name (mk_url_pattern job nm)) hag
      have ht2 : ({ t with url_pattern := mk_url_pattern job nm, columns := pc t.name (mk_url_pattern job nm) } : DataWarehouseTable) = t := by
        have h1 : pc t.name (mk_url_pattern job nm) = t.columns := by
          rw [htname, htcols]
        rw [h1, ← hturl]
      rw [ht2] at hstep
      have htabeq : db.tables.map (fun x => if x.id == t.id then t else x) = db.tables :=
        map_save_same db.tables t t.id
          (fun x hx he => List.inj_on_of_nodup_map hndt hx htmem he)
      rw [htabeq] at hstep
      obtain ⟨db', hloop, htab⟩ := ih { db with
          tables := db.tables,
          schemas := db.schemas.map (fun x => if x.id == r.id then
            { r with table := some t.id,
                     last_synced_at := some job.created_at } else x),
          probe_calls := db.probe_calls ++
            [(mk_table_name job nm, mk_url_pattern job nm)] }
        hndtail
        (by
          dsimp only
          rw [map_ids_save db.schemas _ r.id (by simp)]
          exact hnds)
        hndt
        (by
          intro s hs
          obtain ⟨rr, hrrmem, hrrid, hrrteam, tt, httmem, hrrtable, httname, htturl, httcols⟩ :=
            hlinked s (List.mem_cons_of_mem _ hs)
          have hne : ¬ rr.id = r.id := by
            intro hcontra
            apply hsid_not
            have hss : Prod.fst s = sid := by rw [← hrrid, hcontra, hrid]
            exact hss ▸ List.mem_map_of_mem Prod.fst hs
          refine ⟨rr, ?_, hrrid, hrrteam, tt, httmem, hrrtable, httname, htturl, httcols⟩
          have hmm := List.mem_map_of_mem
            (fun x => if x.id == r.id then
              { r with table := some t.id,
                       last_synced_at := some job.created_at } else x) hrrmem
          simpa [hne] using hmm)
      refine ⟨db', ?_, ?_⟩
      · simp only [process_schemas, hstep]
        exact hloop
      · dsimp only at htab
        exact htab

/-- C3: running the synchronization twice with identical input schemas — the
first run (with no previous successful run) completing successfully and
becoming the previous successful run for the second — creates exactly one
catalog table per schema in the first run, and the second run leaves the
table list exactly as the first produced it: every schema takes the
update-in-place path, so no duplicate is created and each table's URL
pattern (the whole row, in fact) is unchanged from the first run's. -/
theorem c3_idempotent (env1 env2 : Env) (db0 : DB) (r1 r2 : String)
    (job1 job2 : ExternalDataJob) (schemas : List (String × String))
    (pc : String → String → List (String × String))
    (hjob1 : env1.jobs r1 = some job1)
    (hlast1 : env1.latest_run job1.team_id job1.pipeline_id = none)
    (hpr1 : ∀ n u, ∃ c, env1.get_columns_probe n u = ProbeResult.ok c)
    (hcol1 : ∀ n u, env1.get_columns n u = ColumnsResult.ok (pc n u))
    (hjob2 : env2.jobs r2 = some job2)
    (hlast2 : env2.latest_run job2.team_id job2.pipeline_id = some job1)
    (hpr2 : ∀ n u, ∃ c, env2.get_columns_probe n u = ProbeResult.ok c)
    (hcol2 : ∀ n u, env2.get_columns n u = ColumnsResult.ok (pc n u))
    (hraise2 : ∀ s, env2.lookup_raises s = false)
    (hteam : job2.team_id = job1.team_id)
    (hpipe : job2.pipeline = job1.pipeline)
    (hurl : ∀ s, job2.url_pattern_by_schema s = job1.url_pattern_by_schema s)
    (htab0 : db0.tables = [])
    (hnds : (db0.schemas.map (fun x => x.id)).Nodup)
    (hndl : (schemas.map Prod.fst).Nodup)
    (hrecs : ∀ s ∈ schemas, ∃ r ∈ db0.schemas, r.id = s.1 ∧ r.team_id = job1.team_id) :
    ∃ db1 db2,
      validate_schema_and_update_table env1 db0 r1 job1.team_id schemas =
        Except.ok db1 ∧
      validate_schema_and_update_table env2 db1 r2 job1.team_id schemas =
        Except.ok db2 ∧
      db1.tables.length = schemas.length ∧
      db2.tables = db1.tables := by
  obtain ⟨db1, hloop1, hlen1, hnext1, hfresh1, hndt1, hpairs1, htpres1, hrpres1, hlinked1⟩ :=
    run1_loop env1 job1 (env1.credential_for job1.team_id) pc hpr1 hcol1 schemas
      { db0 with credential_fetches := db0.credential_fetches + 1 }
      hndl
      (by intro s hs; exact hrecs s hs)
      hnds
      (by
        intro t ht
        dsimp only at ht
        rw [htab0] at ht
        cases ht)
      (by
        dsimp only
        rw [htab0]
        simp)
  have hrun1 : validate_schema_and_update_table env1 db0 r1 job1.team_id schemas =
      Except.ok db1 := by
    unfold validate_schema_and_update_table
    rw [hjob1]
    dsimp only
    rw [hlast1, hloop1]
  have hlen : db1.tables.length = schemas.length := by
    dsimp only at hlen1
    rw [htab0] at hlen1
    simpa using hlen1
  have hmkn : ∀ x, mk_table_name job2 x = mk_table_name job1 x := by
    intro x
    unfold mk_table_name
    rw [hpipe]
  have hmku : ∀ x, mk_url_pattern job2 x = mk_url_pattern job1 x := by
    intro x
    unfold mk_url_pattern
    rw [hurl]
  have hlinked2 : ∀ s ∈ schemas, linked_ok pc job2 db1 s := by
    intro s hs
    obtain ⟨r, hrmem, hrid, hrteam, t, htmem, hrtable, htname, hturl2, htcols⟩ :=
      hlinked1 s hs
    refine ⟨r, hrmem, hrid, ?_, t, htmem, hrtable, ?_, ?_, ?_⟩
    · rw [hteam]; exact hrteam
    · rw [hmkn]; exact htname
    · rw [hmku]; exact hturl2
    · rw [hmkn, hmku]; exact htcols
  have hids1 : db1.schemas.map (fun x => x.id) = db0.schemas.map (fun x => x.id) := by
    have h := congrArg (List.map Prod.fst) hpairs1
    simpa [List.map_map, Function.comp] using h
  obtain ⟨db2', hloop2, htab2⟩ :=
    run2_loop env2 job2 job1 (env2.credential_for job2.team_id) pc hpr2 hcol2 hraise2
      schemas { db1 with credential_fetches := db1.credential_fetches + 1 }
      hndl
      (by
        dsimp only
        rw [hids1]
        exact hnds)
      hndt1
      (by intro s hs; exact hlinked2 s hs)
  have htab2' : db2'.tables = db1.tables := htab2
  have hrun2 : ∃ db2, validate_schema_and_update_table env2 db1 r2 job1.team_id schemas =
      Except.ok db2 ∧ db2.tables = db2'.tables := by
    unfold validate_schema_and_update_table
    rw [hjob2]
    dsimp only
    rw [hlast2, ← hteam, hloop2]
    dsimp only
    split
    · exact ⟨_, rfl, rfl⟩
    · exact ⟨_, rfl, rfl⟩
  obtain ⟨db2, h2, htb⟩ := hrun2
  exact ⟨db1, db2, hrun1, h2, hlen, htb.trans htab2'⟩

/-- Witness for C3 at the concrete fixtures: one schema, two runs. -/
theorem c3_idempotent_witness :
    ∃ db1 db2,
      validate_schema_and_update_table envA dbA "run1" jobA.team_id
        [("s1", "Users")] = Except.ok db1 ∧
      validate_schema_and_update_table envB2 db1 "run2" jobA.team_id
        [("s1", "Users")] = Except.ok db2 ∧
      db1.tables.length = [("s1", "Users")].length ∧
      db2.tables = db1.tables :=
  c3_idempotent envA envB2 dbA "run1" "run2" jobA jobB [("s1", "Users")]
    (fun _ _ => [("b", "Int")])
    rfl rfl (fun _ _ => ⟨[("a", "String")], rfl⟩) (fun _ _ => rfl)
    rfl rfl (fun _ _ => ⟨[("a", "String")], rfl⟩) (fun _ _ => rfl)
    (fun _ => rfl) rfl rfl (fun _ => rfl) rfl
    (by simp [dbA])
    (by simp)
    (by
      intro s hs
      simp only [List.mem_singleton] at hs
      subst hs
      exact ⟨{ id := "s1", team_id := 7, table := none, last_synced_at := none },
        by simp [dbA], rfl, rfl⟩)
